import Mathlib

/-!
# Interrogation / tessellation export (`shape-io/interrogate.hpp`)

A shallow embedding of `e0::io::writeFaceTessellation` and `e0::io::interrogate`.

* `Standard_Real` values are taken from an arbitrary linearly ordered field `R` (the
  rationals contain every finite double). The arithmetic of doubles rounds: what is
  proved about normals uses no law of arithmetic, and what is proved about the
  deflection only comparisons with `0`, `15` and `1000`.
* `Standard_Integer` is a 32-bit `int`. `writeFaceTessellation` is embedded with counters
  on unbounded naturals; `batchLoopInt` is its batch loop on `Standard_Integer` counters,
  which computes the same while `NbTriangles + BATCH_SIZE` stays in range
  (`batchLoopInt_eq_batchLoop`) and not beyond (`batchLoopInt_overflow`).
* A `Handle(T)` is an `Option T`; `none` is the null handle.
* A C++ call has one of three outcomes: it returns, it propagates a
  `Standard_Failure`, or it dereferences a null handle (undefined behaviour, which
  no `catch (Standard_Failure const&)` clause intercepts).
* The geometry kernel is an external collaborator: a shape carries the result the
  kernel gives for each call the exporter makes on it.
-/

namespace e0.io

/-! ## Documents (`data.hpp`) -/

/-- Modelled from the spec: `data.hpp` (the `DATA` class) is not part of the sources.
Spec §3: an output tree of nodes, Object (ordered mapping of name to Document),
Array (ordered sequence of Document) or Scalar (boolean/number/string). -/
inductive DATA (R : Type) where
  | bool (b : Bool)
  | num (x : R)
  | int (n : Int)
  | str (s : String)
  | arr (items : List (DATA R))
  | obj (fields : List (String × DATA R))

namespace DATA

variable {R : Type}

/-- Modelled from the spec: `Array()` of `data.hpp`, the empty Array document. -/
def Array : DATA R := .arr []

/-- Modelled from the spec: `Object()` of `data.hpp`, the empty Object document. -/
def Object : DATA R := .obj []

/-- Modelled from the spec: `DATA::append` of `data.hpp`; an Array is an ordered
sequence, `append` adds one element at its end. -/
def append : DATA R → DATA R → DATA R
  | .arr items, v => .arr (items ++ [v])
  | d, _ => d

/-- Assignment of a name in an ordered mapping: an existing name keeps its place. -/
def setField (k : String) (v : DATA R) : List (String × DATA R) → List (String × DATA R)
  | [] => [(k, v)]
  | (k', v') :: rest => if k' = k then (k, v) :: rest else (k', v') :: setField k v rest

/-- Modelled from the spec: `d[k] = v` of `data.hpp`; an Object is an ordered mapping of
name to Document. -/
def set : DATA R → String → DATA R → DATA R
  | .obj fields, k, v => .obj (setField k v fields)
  | d, _, _ => d

/-- Whether an Object document has the name `k`. -/
def hasKey (k : String) : DATA R → Bool
  | .obj fields => fields.any (fun p => p.1 == k)
  | _ => false

/-- The document stored under the name `k` of an Object document. -/
def get? (k : String) : DATA R → Option (DATA R)
  | .obj fields => (fields.find? (fun p => p.1 == k)).map Prod.snd
  | _ => none

/-- The elements of an Array document. -/
def items : DATA R → List (DATA R)
  | .arr xs => xs
  | _ => []

/-- An Object document without the name `k`. -/
def erase (k : String) : DATA R → DATA R
  | .obj fields => .obj (fields.filter (fun p => !(p.1 == k)))
  | d => d

end DATA

/-! ## Kernel types -/

/-- The exception class `Standard_Failure`, with its message. -/
structure Standard_Failure where
  msg : String
deriving DecidableEq, Repr

/-- Outcome of a call: normal return, a propagated `Standard_Failure`, or undefined
behaviour (dereference of a null handle). -/
inductive Outcome (α : Type) where
  | ok (a : α)
  | raise (e : Standard_Failure)
  | undefined

structure gp_Pnt (R : Type) where
  x : R
  y : R
  z : R
deriving DecidableEq, Repr

structure gp_Pnt2d (R : Type) where
  x : R
  y : R
deriving DecidableEq, Repr

structure gp_Vec (R : Type) where
  x : R
  y : R
  z : R
deriving DecidableEq, Repr

/-- The kernel operation `gp_Vec::Crossed`. -/
def gp_Vec.Crossed {R : Type} [Ring R] (a b : gp_Vec R) : gp_Vec R :=
  ⟨a.y * b.z - a.z * b.y, a.z * b.x - a.x * b.z, a.x * b.y - a.y * b.x⟩

/-- The kernel operation `gp_Vec::Multiply` by a scalar. -/
def gp_Vec.Multiply {R : Type} [Ring R] (a : gp_Vec R) (s : R) : gp_Vec R :=
  ⟨a.x * s, a.y * s, a.z * s⟩

/-- A `TopLoc_Location`, given by what `Transformed` does with it on points and on
vectors. -/
structure TopLoc_Location (R : Type) where
  onPnt : gp_Pnt R → gp_Pnt R
  onVec : gp_Vec R → gp_Vec R

/-- The kernel operation `gp_Pnt::Transformed`. -/
def gp_Pnt.Transformed {R : Type} (p : gp_Pnt R) (l : TopLoc_Location R) : gp_Pnt R := l.onPnt p

/-- The kernel operation `gp_Vec::Transformed`. -/
def gp_Vec.Transformed {R : Type} (v : gp_Vec R) (l : TopLoc_Location R) : gp_Vec R := l.onVec v

/-- A `Poly_Triangle`: three node indices (`Standard_Integer`, 1-based when valid). -/
structure Poly_Triangle where
  n1 : Int
  n2 : Int
  n3 : Int
deriving DecidableEq, Repr

/-- A `Poly_Triangulation`: nodes, parametric node coordinates (possibly absent) and
triangles, all three 1-indexed arrays in the kernel. -/
structure Poly_Triangulation (R : Type) where
  Nodes : List (gp_Pnt R)
  UVNodes : List (gp_Pnt2d R)
  Triangles : List Poly_Triangle

namespace Poly_Triangulation

variable {R : Type}

def NbNodes (t : Poly_Triangulation R) : Nat := t.Nodes.length

def NbTriangles (t : Poly_Triangulation R) : Nat := t.Triangles.length

/-- Read of a 1-indexed kernel array; outside its bounds the kernel raises
`Standard_OutOfRange`, a `Standard_Failure`. -/
def at1 {α : Type} (xs : List α) (i : Nat) : Except Standard_Failure α :=
  if i = 0 then .error ⟨"Standard_OutOfRange"⟩
  else match xs[i - 1]? with
    | some a => .ok a
    | none => .error ⟨"Standard_OutOfRange"⟩

/-- The accessor `aTr->Node(i)`. -/
def Node (t : Poly_Triangulation R) (i : Nat) : Except Standard_Failure (gp_Pnt R) := at1 t.Nodes i

/-- The accessor `aTr->UVNode(i)`. -/
def UVNode (t : Poly_Triangulation R) (i : Nat) : Except Standard_Failure (gp_Pnt2d R) :=
  at1 t.UVNodes i

/-- The accessor `triangles(nt)` on `aTr->Triangles()`. -/
def Triangle (t : Poly_Triangulation R) (nt : Nat) : Except Standard_Failure Poly_Triangle :=
  at1 t.Triangles nt

end Poly_Triangulation

/-- A `Geom_Surface`: whether `IsKind("Geom_Plane")` holds, and the evaluation `D1`
(point and the two first derivatives), which may raise. -/
structure Geom_Surface (R : Type) where
  IsPlane : Bool
  D1 : R → R → Except Standard_Failure (gp_Pnt R × gp_Vec R × gp_Vec R)

inductive TopAbs_Orientation where
  | FORWARD
  | REVERSED
  | INTERNAL
  | EXTERNAL
deriving DecidableEq, Repr

/-- A non-null `TopoDS_Face` as the exporter sees it after meshing: its underlying
topological entity, its orientation, the result of `BRep_Tool::Triangulation` (a
possibly null triangulation handle, with the face location) and the result of
`BRep_Tool::Surface` (a possibly null surface handle). -/
structure TopoDS_Face (R : Type) where
  TShape : Nat
  Orientation : TopAbs_Orientation
  Triangulation : Option (Poly_Triangulation R)
  Location : TopLoc_Location R
  Surface : Option (Geom_Surface R)

/-- A non-null `TopoDS_Shape`: what `BRepTools::Clean` followed by
`BRepMesh_IncrementalMesh(shape, deflection, relative, angular, parallel)` does with
it. The mesher either raises or leaves the shape with the face sequence that
`TopExp_Explorer` then enumerates (`none` is a null face). -/
structure TopoDS_Shape (R : Type) where
  IncrementalMesh : R → Bool → R → Bool → Except Standard_Failure (List (Option (TopoDS_Face R)))

/-- What the exporter uses and the sources do not define: `gp_Vec::Magnitude` and
`Precision::Confusion()` of the kernel, and `pntWrite`, `dirWrite`
(`commonIO.hpp`), `surfaceWrite` (`surfaceIO.hpp`) and `getStableRefernce`
(`commonIO.hpp`) of this repository. The two writers of a face-level value may raise. -/
structure Externals (R : Type) where
  Magnitude : gp_Vec R → R
  Confusion : R
  pntWrite : gp_Pnt R → DATA R
  dirWrite : gp_Vec R → DATA R
  surfaceWrite : Geom_Surface R → Except Standard_Failure (DATA R)
  getStableRefernce : TopoDS_Face R → Except Standard_Failure (DATA R)

/-! ## `writeFaceTessellation` -/

variable {R : Type} [LinearOrderedField R]

/-- Lines 44-49: the loop `for (i = 1; i <= NbNodes; i++)` that fills
`transformedPoints`; `fuel` bounds the number of passes. -/
def transformedPointsLoop (aTr : Poly_Triangulation R) (aLocation : TopLoc_Location R) :
    Nat → Nat → List (gp_Pnt R) → Except Standard_Failure (List (gp_Pnt R))
  | 0, _, transformedPoints => .ok transformedPoints
  | fuel + 1, i, transformedPoints =>
    if i ≤ aTr.NbNodes then
      if i > aTr.NbNodes then .ok transformedPoints
      else
        match aTr.Node i with
        | .error e => .error e
        | .ok p =>
          transformedPointsLoop aTr aLocation fuel (i + 1)
            (transformedPoints ++ [p.Transformed aLocation])
    else .ok transformedPoints

/-- Lines 57-71: the normal pushed for node `i`; the `try` block, and `(0,0,1)` from
the `catch` clause when `UVNode` or `D1` raises. -/
def nodeNormal (env : Externals R) (aTr : Poly_Triangulation R) (aLocation : TopLoc_Location R)
    (aSurface : Geom_Surface R) (i : Nat) : gp_Vec R :=
  match aTr.UVNode i with
  | .error _ => ⟨0, 0, 1⟩
  | .ok uv =>
    match aSurface.D1 uv.x uv.y with
    | .error _ => ⟨0, 0, 1⟩
    | .ok (_, d1u, d1v) =>
      let normal := d1u.Crossed d1v
      let normal :=
        if env.Magnitude normal > env.Confusion then normal.Multiply (1 / env.Magnitude normal)
        else ⟨0, 0, 1⟩
      normal.Transformed aLocation

/-- Lines 55-72: the loop `for (i = 1; i <= NbNodes; i++)` that fills `normals`. -/
def normalsLoop (env : Externals R) (aTr : Poly_Triangulation R) (aLocation : TopLoc_Location R)
    (aSurface : Geom_Surface R) : Nat → Nat → List (gp_Vec R) → List (gp_Vec R)
  | 0, _, normals => normals
  | fuel + 1, i, normals =>
    if i ≤ aTr.NbNodes then
      if i > aTr.NbNodes then normals
      else
        normalsLoop env aTr aLocation aSurface fuel (i + 1)
          (normals ++ [nodeNormal env aTr aLocation aSurface i])
    else normals

/-- Lines 52-73: the vector `normals`, empty for a plane. -/
def computeNormals (env : Externals R) (aTr : Poly_Triangulation R) (aLocation : TopLoc_Location R)
    (aSurface : Geom_Surface R) (isPlane : Bool) : List (gp_Vec R) :=
  if !isPlane then normalsLoop env aTr aLocation aSurface aTr.NbNodes 1 [] else []

/-- Lines 81-124: the body of the triangle loop for triangle `nt`, applied to `tessOut`.
Every `continue`, and the `catch` clause, leave `tessOut` as it is. The comparison of
an index with `transformedPoints.size()` is unsigned: the index is converted to
`size_t`, so a negative index compares as larger than any size. -/
def triangleBody (env : Externals R) (aTr : Poly_Triangulation R) (isPlane : Bool)
    (transformedPoints : List (gp_Pnt R)) (normals : List (gp_Vec R)) (nt : Nat)
    (tessOut : DATA R) : DATA R :=
  match aTr.Triangle nt with
  | .error _ => tessOut
  | .ok t =>
    let N : Int := aTr.NbNodes
    if t.n1 ≤ 0 ∨ t.n2 ≤ 0 ∨ t.n3 ≤ 0 ∨ t.n1 > N ∨ t.n2 > N ∨ t.n3 > N then tessOut
    else
      let n1 := t.n1 - 1
      let n2 := t.n2 - 1
      let n3 := t.n3 - 1
      let psize : Int := transformedPoints.length
      if hp : n1 ≥ psize ∨ n2 ≥ psize ∨ n3 ≥ psize ∨ n1 < 0 ∨ n2 < 0 ∨ n3 < 0 then tessOut
      else
        let tr : DATA R := DATA.Array
        let tr := tr.append (env.pntWrite (transformedPoints.get ⟨n1.toNat, by omega⟩))
        let tr := tr.append (env.pntWrite (transformedPoints.get ⟨n2.toNat, by omega⟩))
        let tr := tr.append (env.pntWrite (transformedPoints.get ⟨n3.toNat, by omega⟩))
        let defn : DATA R := DATA.Array
        let defn := defn.append tr
        if !isPlane && !normals.isEmpty then
          let nsize : Int := normals.length
          if hn : n1 ≥ nsize ∨ n2 ≥ nsize ∨ n3 ≥ nsize then tessOut
          else
            let norms : DATA R := DATA.Array
            let norms := norms.append (env.dirWrite (normals.get ⟨n1.toNat, by omega⟩))
            let norms := norms.append (env.dirWrite (normals.get ⟨n2.toNat, by omega⟩))
            let norms := norms.append (env.dirWrite (normals.get ⟨n3.toNat, by omega⟩))
            let defn := defn.append norms
            tessOut.append defn
        else tessOut.append defn

/-- Line 80: the loop `for (nt = batch + 1; nt <= batchEnd; nt++)`, from the index `nt`
on; the first numeric argument bounds the number of passes. -/
def innerLoop {σ : Type} (body : Nat → σ → σ) (batchEnd : Nat) : Nat → Nat → σ → σ
  | 0, _, s => s
  | fuel + 1, nt, s =>
    if nt ≤ batchEnd then innerLoop body batchEnd fuel (nt + 1) (body nt s) else s

/-- Lines 77-126: the loop `for (batch = 0; batch < nnn; batch += BATCH_SIZE)`, for a
batch size `B`, from the offset `batch` on; the numeric argument after `nnn` bounds the
number of batches (`nnn` batches are enough when `B` is positive, and more change
nothing). -/
def batchLoop {σ : Type} (B : Nat) (body : Nat → σ → σ) (nnn : Nat) : Nat → Nat → σ → σ
  | 0, _, s => s
  | fuel + 1, batch, s =>
    if batch < nnn then
      let batchEnd := min (batch + B) nnn
      batchLoop B body nnn fuel (batch + B) (innerLoop body batchEnd (batchEnd - batch) (batch + 1) s)
    else s

/-- Line 76. -/
def BATCH_SIZE : Nat := 1000

/-- Lines 29-127: `writeFaceTessellation`; the result is `tessOut` after the call. -/
def writeFaceTessellation (env : Externals R) (aTr : Option (Poly_Triangulation R))
    (aLocation : TopLoc_Location R) (aSurface : Option (Geom_Surface R)) (tessOut : DATA R) :
    Outcome (DATA R) :=
  match aTr with
  | none => .ok tessOut
  | some aTr =>
    if aTr.NbTriangles = 0 ∨ aTr.NbNodes = 0 then .ok tessOut
    else
      let nnn := aTr.NbTriangles
      match aSurface with
      | none => .undefined
      | some aSurface =>
        let isPlane := aSurface.IsPlane
        match transformedPointsLoop aTr aLocation aTr.NbNodes 1 [] with
        | .error e => .raise e
        | .ok transformedPoints =>
          let normals := computeNormals env aTr aLocation aSurface isPlane
          .ok (batchLoop BATCH_SIZE (triangleBody env aTr isPlane transformedPoints normals)
            nnn nnn 0 tessOut)

/-! ### The batch loop on `Standard_Integer` -/

/-- The value of a `Standard_Integer` (a 32-bit signed `int`) sum or increment: a result
outside `[-2147483648, 2147483647]` wraps around (signed overflow is undefined in C++;
two's complement wrap-around is what the usual targets compute). -/
def wrapInt (z : Int) : Int := (z + 2147483648) % 4294967296 - 2147483648

/-- Line 80 with `Standard_Integer` counters: the loop
`for (nt = batch + 1; nt <= batchEnd; nt++)`, from the index `nt` on; the first numeric
argument bounds the number of passes. -/
def innerLoopInt {σ : Type} (body : Int → σ → σ) (batchEnd : Int) : Nat → Int → σ → σ
  | 0, _, s => s
  | fuel + 1, nt, s =>
    if nt ≤ batchEnd then innerLoopInt body batchEnd fuel (wrapInt (nt + 1)) (body nt s) else s

/-- Lines 77-126 with `Standard_Integer` counters: the loop
`for (batch = 0; batch < nnn; batch += BATCH_SIZE)` for a batch size `B`, from the offset
`batch` on. The result is the offset and the state after at most `passes` passes of the
outer loop; the inner loop is given the `batchEnd - batch` passes that take `nt` from
`batch + 1` to `batchEnd` (for `nnn` below `2147483647` the index `nt` stays in range, as
`batchEnd` is at most `nnn`). -/
def batchLoopInt {σ : Type} (B : Int) (body : Int → σ → σ) (nnn : Int) :
    Nat → Int → σ → Int × σ
  | 0, batch, s => (batch, s)
  | passes + 1, batch, s =>
    if batch < nnn then
      let batchEnd := min (wrapInt (batch + B)) nnn
      batchLoopInt B body nnn passes (wrapInt (batch + B))
        (innerLoopInt body batchEnd (batchEnd - batch).toNat (wrapInt (batch + 1)) s)
    else (batch, s)

/-! ## `interrogate` -/

/-- Lines 140-144: the deflection given to the mesher. -/
def actualDeflection (aDeflection : R) : R :=
  if aDeflection ≤ 0 ∨ aDeflection > 1000 then 15 else aDeflection

/-- Lines 151-155: the arguments of the `BRepMesh_IncrementalMesh` call after the
shape: deflection, relative, angular deflection, parallel. -/
def mesherArguments (aDeflection : R) : R × Bool × R × Bool :=
  (actualDeflection aDeflection, true, 1 / 2, false)

/-- Lines 175-183: the surface of the face is read and, when not null, classified. -/
def surfaceInfo (env : Externals R) (aSurface : Option (Geom_Surface R)) (faceOut : DATA R) :
    Except Standard_Failure (DATA R) :=
  match aSurface with
  | none => .ok faceOut
  | some s =>
    if s.IsPlane then
      match env.surfaceWrite s with
      | .error e => .error e
      | .ok d => .ok (faceOut.set "surface" d)
    else .ok (faceOut.set "surface" (.obj [("TYPE", .str "UNKNOWN")]))

/-- Lines 185-189: the tessellation of the face, unless struct-only mode is on. -/
def tessInfo (env : Externals R) (INTERROGATE_STRUCT_ONLY : Bool) (aTr : Poly_Triangulation R)
    (aLocation : TopLoc_Location R) (aSurface : Option (Geom_Surface R)) (faceOut : DATA R) :
    Outcome (DATA R) :=
  if !INTERROGATE_STRUCT_ONLY then
    match writeFaceTessellation env (some aTr) aLocation aSurface DATA.Array with
    | .ok tessOut => .ok (faceOut.set "tess" tessOut)
    | .raise e => .raise e
    | .undefined => .undefined
  else .ok faceOut

/-- Lines 166-196: the `try` block of the face loop for one face. `heap k` is the
address that the `k`-th `new TopoDS_Face` of this call returns and `allocated` the
number of allocations made so far. The result is what the block does (`some faceOut`
when it reaches `facesOut.append`, `none` for a `continue`) and the number of
allocations after it. -/
def faceTry (env : Externals R) (INTERROGATE_STRUCT_ONLY : Bool) (heap : Nat → Nat)
    (allocated : Nat) : Option (TopoDS_Face R) → Outcome (Option (DATA R)) × Nat
  | none => (.ok none, allocated)
  | some aFace =>
    match aFace.Triangulation with
    | none => (.ok none, allocated)
    | some aTr =>
      if aTr.NbTriangles = 0 ∨ aTr.NbNodes = 0 then (.ok none, allocated)
      else
        let faceOut : DATA R := DATA.Object
        let aSurface := aFace.Surface
        match surfaceInfo env aSurface faceOut with
        | .error e => (.raise e, allocated)
        | .ok faceOut =>
          match tessInfo env INTERROGATE_STRUCT_ONLY aTr aFace.Location aSurface faceOut with
          | .raise e => (.raise e, allocated)
          | .undefined => (.undefined, allocated)
          | .ok faceOut =>
            let faceOut := faceOut.set "inverted"
              (.bool (decide (aFace.Orientation = TopAbs_Orientation.REVERSED)))
            let persistFace := heap allocated
            match env.getStableRefernce aFace with
            | .error e => (.raise e, allocated + 1)
            | .ok ref =>
              let faceOut := faceOut.set "ref" ref
              let faceOut := faceOut.set "ptr" (.int persistFace)
              (.ok (some faceOut), allocated + 1)

/-- Lines 164-201: the face loop. A `Standard_Failure` of the `try` block is caught
and the loop goes on with the next face. -/
def faceLoop (env : Externals R) (INTERROGATE_STRUCT_ONLY : Bool) (heap : Nat → Nat) :
    List (Option (TopoDS_Face R)) → Nat → List (DATA R) → Outcome (List (DATA R))
  | [], _, facesOut => .ok facesOut
  | aFace :: rest, allocated, facesOut =>
    match faceTry env INTERROGATE_STRUCT_ONLY heap allocated aFace with
    | (.ok (some faceOut), allocated) =>
      faceLoop env INTERROGATE_STRUCT_ONLY heap rest allocated (facesOut ++ [faceOut])
    | (.ok none, allocated) => faceLoop env INTERROGATE_STRUCT_ONLY heap rest allocated facesOut
    | (.raise _, allocated) => faceLoop env INTERROGATE_STRUCT_ONLY heap rest allocated facesOut
    | (.undefined, _) => .undefined

/-- Lines 129-210: `interrogate`. A null shape and a failure of the mesher are
re-raised by the outer `catch` clause. -/
def interrogate (env : Externals R) (aShape : Option (TopoDS_Shape R)) (aDeflection : R)
    (INTERROGATE_STRUCT_ONLY : Bool) (heap : Nat → Nat) : Outcome (DATA R) :=
  let out : DATA R := DATA.Object
  match aShape with
  | none => .raise ⟨"Null shape provided"⟩
  | some aShape =>
    let args := mesherArguments aDeflection
    match aShape.IncrementalMesh args.1 args.2.1 args.2.2.1 args.2.2.2 with
    | .error e => .raise e
    | .ok faces =>
      match faceLoop env INTERROGATE_STRUCT_ONLY heap faces 0 [] with
      | .ok facesOut => .ok (out.set "faces" (.arr facesOut))
      | .raise e => .raise e
      | .undefined => .undefined

/-! ## Specification-side definitions -/

/-- A triangle whose three node indices all lie in `[1, N]`. -/
def inRange (N : Nat) (t : Poly_Triangle) : Bool :=
  decide (1 ≤ t.n1 ∧ t.n1 ≤ N ∧ 1 ≤ t.n2 ∧ t.n2 ≤ N ∧ 1 ≤ t.n3 ∧ t.n3 ≤ N)

/-- Node `n` of the triangulation (1-based); the origin stands in outside `[1, NbNodes]`. -/
def nodeOf (aTr : Poly_Triangulation R) (n : Int) : gp_Pnt R :=
  aTr.Nodes.getD (n - 1).toNat ⟨0, 0, 0⟩

/-- The points sub-array of the record of triangle `t`: the Location-transformed nodes
`n1`, `n2`, `n3`, in that order. -/
def pointsOf (env : Externals R) (aTr : Poly_Triangulation R) (aLocation : TopLoc_Location R)
    (t : Poly_Triangle) : DATA R :=
  .arr [env.pntWrite ((nodeOf aTr t.n1).Transformed aLocation),
    env.pntWrite ((nodeOf aTr t.n2).Transformed aLocation),
    env.pntWrite ((nodeOf aTr t.n3).Transformed aLocation)]

/-- The normals sub-array of the record of triangle `t`: the normals of the nodes
`n1`, `n2`, `n3`, in that order. -/
def normalsOf (env : Externals R) (aTr : Poly_Triangulation R) (aLocation : TopLoc_Location R)
    (aSurface : Geom_Surface R) (t : Poly_Triangle) : DATA R :=
  .arr [env.dirWrite (nodeNormal env aTr aLocation aSurface t.n1.toNat),
    env.dirWrite (nodeNormal env aTr aLocation aSurface t.n2.toNat),
    env.dirWrite (nodeNormal env aTr aLocation aSurface t.n3.toNat)]

/-- The record of triangle `t`: the points, then the normals unless the surface is a
plane. -/
def triangleRecord (env : Externals R) (aTr : Poly_Triangulation R)
    (aLocation : TopLoc_Location R) (aSurface : Geom_Surface R) (t : Poly_Triangle) : DATA R :=
  .arr (pointsOf env aTr aLocation t ::
    if aSurface.IsPlane then [] else [normalsOf env aTr aLocation aSurface t])

/-- The faces array of a document returned by `interrogate`. -/
def facesOf (doc : DATA R) : List (DATA R) :=
  match doc.get? "faces" with
  | some d => d.items
  | none => []

/-- A face that the face loop does not pass over at line 167 or 172: a face that is not
null, with a triangulation that is not null and has a triangle and a node. -/
def hasMesh : Option (TopoDS_Face R) → Bool
  | none => false
  | some aFace =>
    match aFace.Triangulation with
    | none => false
    | some aTr => decide (aTr.NbTriangles ≠ 0 ∧ aTr.NbNodes ≠ 0)

/-- Whether a call returned without raising. -/
def returns {α : Type} : Except Standard_Failure α → Bool
  | .ok _ => true
  | .error _ => false

/-- A face for which the surface writer or the identity assignment raises. -/
def faceFaults (env : Externals R) : Option (TopoDS_Face R) → Bool
  | none => false
  | some aFace =>
    (match aFace.Surface with
      | some s => s.IsPlane && !returns (env.surfaceWrite s)
      | none => false) || !returns (env.getStableRefernce aFace)

/-- A face with a mesh and a null surface: `writeFaceTessellation` dereferences the
null handle when it is given such a face. -/
def nullSurface : Option (TopoDS_Face R) → Bool
  | none => false
  | some aFace => hasMesh (some aFace) && aFace.Surface.isNone

/-- The face object of a face without its "ptr", when the `try` block builds one. -/
def faceEntry (env : Externals R) (INTERROGATE_STRUCT_ONLY : Bool) (f : Option (TopoDS_Face R)) :
    DATA R :=
  match (faceTry env INTERROGATE_STRUCT_ONLY (fun _ => 0) 0 f).1 with
  | .ok (some faceOut) => faceOut.erase "ptr"
  | _ => DATA.Object

/-- Modelled from the spec: `getStableRefernce` (`commonIO.hpp`) is not part of the
sources. Spec §4.4: repeated calls on an unchanged Face return an equal reference,
independent of transient memory addresses. The reference of a face is therefore the
value of one function of the face, the same in every run and for every heap. -/
def stableReference (env : Externals R) (aFace : TopoDS_Face R) :
    Except Standard_Failure (DATA R) :=
  env.getStableRefernce aFace

/-- The loop body that records the index it is run on. -/
def visitIndex (nt : Int) (visited : List Int) : List Int := visited ++ [nt]

/-! ## Sample inputs -/

/-- Sample externals over the rationals. `Magnitude` is the sum of the absolute
coordinates, which is the length of a vector parallel to an axis; the identity
assignment raises for the entity `0`. -/
def sampleEnv : Externals ℚ where
  Magnitude v := (if 0 ≤ v.x then v.x else -v.x) + (if 0 ≤ v.y then v.y else -v.y)
    + (if 0 ≤ v.z then v.z else -v.z)
  Confusion := 1 / 10000000
  pntWrite p := .arr [.num p.x, .num p.y, .num p.z]
  dirWrite v := .arr [.num v.x, .num v.y, .num v.z]
  surfaceWrite _ := .ok (.obj [("TYPE", .str "Plane")])
  getStableRefernce f := if f.TShape = 0 then .error ⟨"no entity"⟩ else .ok (.int f.TShape)

/-- Sample location: the rotation that permutes the axes, then a translation. -/
def sampleLocation : TopLoc_Location ℚ where
  onPnt p := ⟨p.z + 10, p.x, p.y⟩
  onVec v := ⟨v.z, v.x, v.y⟩

/-- Sample triangulation: three nodes and three triangles, the second with a node index
out of range. -/
def sampleTriangulation : Poly_Triangulation ℚ where
  Nodes := [⟨0, 0, 0⟩, ⟨1, 0, 0⟩, ⟨0, 1, 0⟩]
  UVNodes := [⟨0, 0⟩, ⟨1, 0⟩, ⟨0, 1⟩]
  Triangles := [⟨1, 2, 3⟩, ⟨1, 2, 7⟩, ⟨3, 2, 1⟩]

def samplePlane : Geom_Surface ℚ where
  IsPlane := true
  D1 u v := .ok (⟨u, v, 0⟩, ⟨1, 0, 0⟩, ⟨0, 1, 0⟩)

/-- Sample surface that is not a plane: degenerate at `u = 0`, raising at `v = 1`. -/
def sampleCurved : Geom_Surface ℚ where
  IsPlane := false
  D1 u v :=
    if v = 1 then .error ⟨"Geom_UndefinedDerivative"⟩
    else .ok (⟨u, v, 0⟩, ⟨0, 1, 0⟩, ⟨0, 0, u⟩)

/-- Sample face on the entity `id` with surface handle `s`. -/
def sampleFace (id : Nat) (s : Option (Geom_Surface ℚ)) : TopoDS_Face ℚ where
  TShape := id
  Orientation := .REVERSED
  Triangulation := some sampleTriangulation
  Location := sampleLocation
  Surface := s

/-- Sample shape on which the mesher succeeds and leaves the faces `faces`. -/
def sampleShape (faces : List (Option (TopoDS_Face ℚ))) : TopoDS_Shape ℚ where
  IncrementalMesh _ _ _ _ := .ok faces

/-- Sample shape on which the mesher raises. -/
def unmeshableShape : TopoDS_Shape ℚ where
  IncrementalMesh _ _ _ _ := .error ⟨"BRepMesh"⟩

/-! ## Loops -/

set_option linter.unusedSectionVars false

theorem at1_eq {α : Type} (xs : List α) (i : Nat) (h1 : 1 ≤ i) (h2 : i ≤ xs.length) (d : α) :
    Poly_Triangulation.at1 xs i = .ok (xs.getD (i - 1) d) := by
  have hi : i - 1 < xs.length := by omega
  have h0 : i ≠ 0 := by omega
  simp [Poly_Triangulation.at1, h0, List.getElem?_eq_getElem hi, List.getD_eq_getElem _ _ hi]

theorem transformedPointsLoop_eq (aTr : Poly_Triangulation R) (aLocation : TopLoc_Location R)
    (fuel i : Nat) (acc : List (gp_Pnt R)) (hi : 1 ≤ i) (hf : i + fuel = aTr.NbNodes + 1) :
    transformedPointsLoop aTr aLocation fuel i acc
      = .ok (acc ++ (aTr.Nodes.drop (i - 1)).map (fun p => p.Transformed aLocation)) := by
  induction fuel generalizing i acc with
  | zero =>
    have : aTr.Nodes.length ≤ i - 1 := by simp only [Poly_Triangulation.NbNodes] at hf; omega
    simp [transformedPointsLoop, List.drop_eq_nil_of_le this]
  | succ fuel ih =>
    have hle : i ≤ aTr.NbNodes := by omega
    have hlen : i - 1 < aTr.Nodes.length := by simp only [Poly_Triangulation.NbNodes] at hle; omega
    have hnode : aTr.Node i = .ok (aTr.Nodes.getD (i - 1) ⟨0, 0, 0⟩) :=
      at1_eq aTr.Nodes i hi hle _
    have hdrop : aTr.Nodes.drop (i - 1)
        = aTr.Nodes.getD (i - 1) ⟨0, 0, 0⟩ :: aTr.Nodes.drop i := by
      rw [List.getD_eq_getElem _ _ hlen, List.drop_eq_getElem_cons hlen]
      congr 2
      omega
    rw [transformedPointsLoop, if_pos hle, if_neg (by omega), hnode]
    simp only []
    rw [ih (i + 1) _ (by omega) (by omega), hdrop]
    simp

theorem normalsLoop_eq (env : Externals R) (aTr : Poly_Triangulation R)
    (aLocation : TopLoc_Location R) (aSurface : Geom_Surface R)
    (fuel i : Nat) (acc : List (gp_Vec R)) (hf : i + fuel = aTr.NbNodes + 1) :
    normalsLoop env aTr aLocation aSurface fuel i acc
      = acc ++ (List.range' i fuel).map (nodeNormal env aTr aLocation aSurface) := by
  induction fuel generalizing i acc with
  | zero => simp [normalsLoop]
  | succ fuel ih =>
    have hle : i ≤ aTr.NbNodes := by omega
    rw [normalsLoop, if_pos hle, if_neg (by omega), ih (i + 1) _ (by omega)]
    simp [List.range'_succ]

theorem innerLoop_eq {σ : Type} (body : Nat → σ → σ) (batchEnd fuel nt : Nat) (s : σ)
    (hf : nt + fuel = batchEnd + 1) :
    innerLoop body batchEnd fuel nt s
      = (List.range' nt fuel).foldl (fun s nt => body nt s) s := by
  induction fuel generalizing nt s with
  | zero => simp [innerLoop]
  | succ fuel ih =>
    rw [innerLoop, if_pos (by omega), ih (nt + 1) _ (by omega)]
    simp [List.range'_succ]

theorem batchLoop_eq {σ : Type} (B : Nat) (hB : 0 < B) (body : Nat → σ → σ) (nnn : Nat)
    (fuel batch : Nat) (s : σ) (hf : nnn ≤ batch + fuel) :
    batchLoop B body nnn fuel batch s
      = (List.range' (batch + 1) (nnn - batch)).foldl (fun s nt => body nt s) s := by
  induction fuel generalizing batch s with
  | zero =>
    have : nnn - batch = 0 := by omega
    simp [batchLoop, this]
  | succ fuel ih =>
    rw [batchLoop]
    by_cases hlt : batch < nnn
    · rw [if_pos hlt]
      simp only []
      rw [ih (batch + B) _ (by omega), innerLoop_eq body _ _ _ _ (by omega), ← List.foldl_append]
      congr 1
      have hsplit : nnn - batch = (min (batch + B) nnn - batch) + (nnn - (batch + B)) := by omega
      have hstart : batch + B + 1 = batch + 1 + (min (batch + B) nnn - batch) ∨
          nnn - (batch + B) = 0 := by omega
      rcases hstart with h | h
      · rw [hsplit, h, List.range'_append_1]
        congr 1
        omega
      · rw [h]
        have : min (batch + B) nnn - batch = nnn - batch := by omega
        simp [this]
    · rw [if_neg hlt]
      have : nnn - batch = 0 := by omega
      simp [this]

/-! ## The triangle loop -/

theorem transformedPoints_eq (aTr : Poly_Triangulation R) (aLocation : TopLoc_Location R) :
    transformedPointsLoop aTr aLocation aTr.NbNodes 1 []
      = .ok (aTr.Nodes.map (fun p => p.Transformed aLocation)) := by
  rw [transformedPointsLoop_eq aTr aLocation _ 1 [] (le_refl 1) (by omega)]
  simp

theorem computeNormals_eq (env : Externals R) (aTr : Poly_Triangulation R)
    (aLocation : TopLoc_Location R) (aSurface : Geom_Surface R) (isPlane : Bool) :
    computeNormals env aTr aLocation aSurface isPlane
      = if isPlane then []
        else (List.range' 1 aTr.NbNodes).map (nodeNormal env aTr aLocation aSurface) := by
  cases isPlane
  · simp [computeNormals,
      normalsLoop_eq env aTr aLocation aSurface aTr.NbNodes 1 [] (Nat.add_comm _ _)]
  · simp [computeNormals]

theorem triangleBody_eq (env : Externals R) (aTr : Poly_Triangulation R)
    (aLocation : TopLoc_Location R) (aSurface : Geom_Surface R) (nt : Nat) (t : Poly_Triangle)
    (xs : List (DATA R)) (ht : aTr.Triangle nt = .ok t) :
    triangleBody env aTr aSurface.IsPlane (aTr.Nodes.map (fun p => p.Transformed aLocation))
        (computeNormals env aTr aLocation aSurface aSurface.IsPlane) nt (.arr xs)
      = .arr (xs ++ if inRange aTr.NbNodes t then [triangleRecord env aTr aLocation aSurface t]
          else []) := by
  rw [computeNormals_eq]
  unfold triangleBody
  rw [ht]
  simp only []
  by_cases hr : inRange aTr.NbNodes t = true
  · have hr' := hr
    simp only [inRange, decide_eq_true_eq] at hr'
    obtain ⟨a1, a2, b1, b2, c1, c2⟩ := hr'
    have hN : 0 < aTr.NbNodes := by omega
    rw [if_neg (by omega), dif_neg (by simp only [List.length_map, Poly_Triangulation.NbNodes] at *; omega)]
    rw [if_pos hr]
    have g1 : (t.n1 - 1).toNat < aTr.Nodes.length := by
      simp only [Poly_Triangulation.NbNodes] at *; omega
    have g2 : (t.n2 - 1).toNat < aTr.Nodes.length := by
      simp only [Poly_Triangulation.NbNodes] at *; omega
    have g3 : (t.n3 - 1).toNat < aTr.Nodes.length := by
      simp only [Poly_Triangulation.NbNodes] at *; omega
    have e1 : 1 + (t.n1.toNat - 1) = t.n1.toNat := by omega
    have e2 : 1 + (t.n2.toNat - 1) = t.n2.toNat := by omega
    have e3 : 1 + (t.n3.toNat - 1) = t.n3.toNat := by omega
    have k1 : t.n1.toNat - 1 < aTr.Nodes.length := by omega
    have k2 : t.n2.toNat - 1 < aTr.Nodes.length := by omega
    have k3 : t.n3.toNat - 1 < aTr.Nodes.length := by omega
    have hnodes : aTr.Nodes ≠ [] := by
      intro h
      rw [h] at g1
      simp at g1
    have hc : ¬ ((aTr.Nodes.length : Int) ≤ t.n1 - 1 ∨ (aTr.Nodes.length : Int) ≤ t.n2 - 1 ∨
        (aTr.Nodes.length : Int) ≤ t.n3 - 1) := by
      simp only [Poly_Triangulation.NbNodes] at *
      omega
    cases hp : aSurface.IsPlane
    · have hne : (List.range' 1 aTr.NbNodes) ≠ [] := by
        intro h
        have := congrArg List.length h
        simp at this
        omega
      simp [hne, DATA.append, DATA.Array, triangleRecord, pointsOf, normalsOf, nodeOf, hp,
        List.getElem?_eq_getElem k1, List.getElem?_eq_getElem k2, List.getElem?_eq_getElem k3,
        List.getElem_range', e1, e2, e3, Poly_Triangulation.NbNodes, hnodes, hc]
    · simp [DATA.append, DATA.Array, triangleRecord, pointsOf, nodeOf, hp,
        List.getElem?_eq_getElem k1, List.getElem?_eq_getElem k2, List.getElem?_eq_getElem k3]
  · have hr' := hr
    simp only [inRange, decide_eq_true_eq] at hr'
    rw [if_pos (by omega)]
    simp [hr]

theorem flatten_records {α β : Type} (p : α → Bool) (f : α → β) (l : List α) :
    (l.map (fun t => if p t then [f t] else [])).flatten = (l.filter p).map f := by
  induction l with
  | nil => simp
  | cons t rest ih =>
    by_cases ht : p t = true
    · simp [ht, ih]
    · simp [ht, ih]

theorem triangleLoop_eq (body : Nat → DATA R → DATA R) (rec : Poly_Triangle → List (DATA R))
    (tris done : List Poly_Triangle) (xs : List (DATA R))
    (hbody : ∀ (k : Nat) (t : Poly_Triangle) (ys : List (DATA R)), tris[k]? = some t →
      body (done.length + k + 1) (.arr ys) = .arr (ys ++ rec t)) :
    (List.range' (done.length + 1) tris.length).foldl (fun s nt => body nt s) (.arr xs)
      = .arr (xs ++ (tris.map rec).flatten) := by
  induction tris generalizing done xs with
  | nil => simp
  | cons t rest ih =>
    have h0 := hbody 0 t xs (by simp)
    simp only [List.length_cons, List.range'_succ, List.foldl_cons, Nat.add_zero] at h0 ⊢
    rw [h0]
    have := ih (done ++ [t]) (xs ++ rec t) (by
      intro k u ys hk
      have := hbody (k + 1) u ys (by simpa using hk)
      simpa [Nat.add_assoc, Nat.add_comm 1 k] using this)
    simp only [List.length_append, List.length_singleton] at this
    rw [this]
    simp

/-- The records that `writeFaceTessellation` appends to `tessOut`, for a surface that is
not null: one per triangle with its three node indices in range, in triangle order. -/
theorem writeFaceTessellation_eq (env : Externals R) (aTr : Poly_Triangulation R)
    (aLocation : TopLoc_Location R) (aSurface : Geom_Surface R) (xs : List (DATA R)) :
    writeFaceTessellation env (some aTr) aLocation (some aSurface) (.arr xs)
      = .ok (.arr (xs ++ (aTr.Triangles.filter (inRange aTr.NbNodes)).map
          (triangleRecord env aTr aLocation aSurface))) := by
  unfold writeFaceTessellation
  simp only []
  by_cases h0 : aTr.NbTriangles = 0 ∨ aTr.NbNodes = 0
  · rw [if_pos h0]
    rcases h0 with h | h
    · have : aTr.Triangles = [] := List.length_eq_zero.mp h
      simp [this]
    · have : aTr.Triangles.filter (inRange aTr.NbNodes) = [] := by
        rw [List.filter_eq_nil_iff]
        intro t _
        simp only [inRange, h, decide_eq_true_eq]
        omega
      simp [this]
  · rw [if_neg h0, transformedPoints_eq]
    simp only []
    rw [batchLoop_eq BATCH_SIZE (by decide) _ _ _ _ _ (by omega)]
    have key := triangleLoop_eq
      (triangleBody env aTr aSurface.IsPlane (aTr.Nodes.map (fun p => p.Transformed aLocation))
        (computeNormals env aTr aLocation aSurface aSurface.IsPlane))
      (fun t => if inRange aTr.NbNodes t then [triangleRecord env aTr aLocation aSurface t] else [])
      aTr.Triangles [] xs (by
        intro k t ys hk
        have hlt : k < aTr.Triangles.length := by
          by_contra hc
          rw [List.getElem?_eq_none (by omega)] at hk
          cases hk
        have ht : aTr.Triangle (k + 1) = .ok t := by
          have := at1_eq aTr.Triangles (k + 1) (by omega) (by omega) t
          rw [Poly_Triangulation.Triangle, this]
          simp [List.getD_eq_getElem?_getD, hk]
        simpa using triangleBody_eq env aTr aLocation aSurface (k + 1) t ys ht)
    simp only [List.length_nil, Nat.zero_add, Nat.sub_zero] at key ⊢
    rw [Poly_Triangulation.NbTriangles, key, flatten_records]

/-! ## Tessellation records -/

theorem wrapInt_of_inRange (z : Int) (h1 : -2147483648 ≤ z) (h2 : z ≤ 2147483647) :
    wrapInt z = z := by
  unfold wrapInt
  omega

theorem innerLoopInt_eq_innerLoop {σ : Type} (body : Int → σ → σ) (batchEnd fuel nt : Nat)
    (s : σ) (he : batchEnd ≤ 2147483647) (hf : nt + fuel ≤ batchEnd + 1) :
    innerLoopInt body batchEnd fuel nt s
      = innerLoop (fun n s => body n s) batchEnd fuel nt s := by
  induction fuel generalizing nt s with
  | zero => rfl
  | succ fuel ih =>
    have hle : nt ≤ batchEnd := by omega
    have hle' : (nt : Int) ≤ (batchEnd : Int) := by omega
    rw [innerLoopInt, innerLoop, if_pos hle, if_pos hle']
    cases fuel with
    | zero => rfl
    | succ fuel =>
      have hw : wrapInt ((nt : Int) + 1) = ((nt + 1 : Nat) : Int) := by
        rw [wrapInt_of_inRange _ (by omega) (by omega)]
        omega
      rw [hw]
      exact ih (nt + 1) _ (by omega)

/-- One pass of the outer loop whose batch end stays in the range of `Standard_Integer`. -/
theorem batchLoopInt_pass {σ : Type} (B nnn : Nat) (body : Int → σ → σ) (passes batch : Nat)
    (s : σ) (hlt : batch < nnn) (hn : nnn ≤ 2147483647) (hb : batch + B ≤ 2147483647) :
    batchLoopInt B body nnn (passes + 1) batch s
      = batchLoopInt B body nnn passes ((batch + B : Nat) : Int)
          (innerLoop (fun n s => body n s) (min (batch + B) nnn) (min (batch + B) nnn - batch)
            (batch + 1) s) := by
  have hlt' : (batch : Int) < (nnn : Int) := by omega
  have hw : wrapInt ((batch : Int) + (B : Int)) = ((batch + B : Nat) : Int) := by
    rw [wrapInt_of_inRange _ (by omega) (by omega)]
    omega
  have hw1 : wrapInt ((batch : Int) + 1) = ((batch + 1 : Nat) : Int) := by
    rw [wrapInt_of_inRange _ (by omega) (by omega)]
    omega
  have hmin : min ((batch + B : Nat) : Int) (nnn : Int) = ((min (batch + B) nnn : Nat) : Int) := by
    omega
  have hfuel : (((min (batch + B) nnn : Nat) : Int) - (batch : Int)).toNat
      = min (batch + B) nnn - batch := by
    omega
  rw [batchLoopInt, if_pos hlt']
  simp only [hw, hw1, hmin, hfuel]
  rw [innerLoopInt_eq_innerLoop body _ _ _ _ (by omega) (by omega)]

/-- While no batch end leaves the range of `Standard_Integer`, the loop on
`Standard_Integer` counters computes what the loop on unbounded counters computes. -/
theorem batchLoopInt_eq_batchLoop {σ : Type} (B nnn : Nat) (body : Int → σ → σ)
    (hn : nnn + B ≤ 2147483647) (fuel batch : Nat) (s : σ) :
    (batchLoopInt B body nnn fuel batch s).2
      = batchLoop B (fun n s => body n s) nnn fuel batch s := by
  induction fuel generalizing batch s with
  | zero => rfl
  | succ fuel ih =>
    by_cases hlt : batch < nnn
    · rw [batchLoopInt_pass B nnn body fuel batch s hlt (by omega) (by omega), ih, batchLoop,
        if_pos hlt]
    · have hlt' : ¬ (batch : Int) < (nnn : Int) := by omega
      rw [batchLoopInt, if_neg hlt', batchLoop, if_neg hlt]

/-- The loop on unbounded counters after `fuel` batches. -/
theorem batchLoop_partial {σ : Type} (B : Nat) (body : Nat → σ → σ) (nnn : Nat)
    (fuel batch : Nat) (s : σ) :
    batchLoop B body nnn fuel batch s
      = (List.range' (batch + 1) (min (batch + fuel * B) nnn - batch)).foldl
          (fun s nt => body nt s) s := by
  induction fuel generalizing batch s with
  | zero =>
    have : min (batch + 0 * B) nnn - batch = 0 := by omega
    simp [batchLoop, this]
  | succ fuel ih =>
    rw [batchLoop]
    have hmul : (fuel + 1) * B = fuel * B + B := Nat.succ_mul fuel B
    by_cases hlt : batch < nnn
    · rw [if_pos hlt]
      simp only []
      rw [ih (batch + B), innerLoop_eq body _ _ _ _ (by omega), ← List.foldl_append]
      congr 1
      rw [hmul]
      generalize fuel * B = m
      by_cases hfull : batch + B ≤ nnn
      · have h1 : min (batch + B) nnn - batch = B := by omega
        have h2 : min (batch + (m + B)) nnn - batch
            = (min (batch + B + m) nnn - (batch + B)) + B := by omega
        rw [h1, h2, Nat.add_right_comm batch B 1, List.range'_append_1]
      · have h1 : min (batch + B) nnn - batch = nnn - batch := by omega
        have h2 : min (batch + (m + B)) nnn - batch = nnn - batch := by omega
        have h3 : min (batch + B + m) nnn - (batch + B) = 0 := by omega
        rw [h1, h2, h3]
        simp
    · rw [if_neg hlt]
      have : min (batch + (fuel + 1) * B) nnn - batch = 0 := by
        have : min (batch + (fuel + 1) * B) nnn ≤ nnn := Nat.min_le_right _ _
        omega
      simp [this]

/-- The first `passes` full batches on `Standard_Integer` counters: the offset reached and
the state, which is that of the single pass over the indices `1..passes * B`. -/
theorem batchLoopInt_full_batches {σ : Type} (B nnn : Nat) (body : Int → σ → σ)
    (hB : 0 < B) (hn : nnn ≤ 2147483647) (passes batch : Nat) (s : σ)
    (hp : batch + passes * B ≤ nnn) :
    batchLoopInt B body nnn passes batch s
      = (((batch + passes * B : Nat) : Int),
          (List.range' (batch + 1) (passes * B)).foldl
            (fun (s : σ) (nt : Nat) => body (nt : Int) s) s) := by
  induction passes generalizing batch s with
  | zero => simp [batchLoopInt]
  | succ passes ih =>
    have hmul : (passes + 1) * B = passes * B + B := Nat.succ_mul passes B
    rw [hmul] at hp ⊢
    have hlt : batch < nnn := by omega
    rw [batchLoopInt_pass B nnn body passes batch s hlt hn (by omega),
      ih (batch + B) _ (by omega), innerLoop_eq _ _ _ _ _ (by omega), ← List.foldl_append]
    have h1 : min (batch + B) nnn - batch = B := by omega
    rw [h1, Nat.add_right_comm batch B 1, List.range'_append_1]
    congr 2
    all_goals omega

theorem batchLoopInt_add {σ : Type} (B : Int) (body : Int → σ → σ) (nnn : Int)
    (p q : Nat) (batch : Int) (s : σ) :
    batchLoopInt B body nnn (p + q) batch s
      = batchLoopInt B body nnn q (batchLoopInt B body nnn p batch s).1
          (batchLoopInt B body nnn p batch s).2 := by
  induction p generalizing batch s with
  | zero => simp [batchLoopInt]
  | succ p ih =>
    rw [Nat.add_right_comm, batchLoopInt, batchLoopInt]
    by_cases hlt : batch < nnn
    · simp only [if_pos hlt]
      exact ih _ _
    · simp only [if_neg hlt]
      cases q with
      | zero => rfl
      | succ q => rw [batchLoopInt, if_neg hlt]

theorem foldl_visitIndex (l : List Nat) (acc : List Int) :
    l.foldl (fun (s : List Int) (nt : Nat) => visitIndex (nt : Int) s) acc
      = acc ++ l.map Int.ofNat := by
  induction l generalizing acc with
  | nil => simp
  | cons a l ih =>
    rw [List.foldl_cons, ih]
    simp [visitIndex]

theorem innerLoopInt_visitIndex (batchEnd : Int) (fuel : Nat) (nt : Int) (s : List Int)
    (hlo : -2147483648 ≤ nt) (he : batchEnd ≤ 2147483647) (hf : nt + fuel ≤ batchEnd + 1) :
    innerLoopInt visitIndex batchEnd fuel nt s
      = s ++ (List.range fuel).map (fun i : Nat => nt + (i : Int)) := by
  induction fuel generalizing nt s with
  | zero => simp [innerLoopInt]
  | succ fuel ih =>
    rw [innerLoopInt, if_pos (by omega)]
    cases fuel with
    | zero => simp [innerLoopInt, visitIndex, List.range_succ_eq_map]
    | succ fuel =>
      rw [wrapInt_of_inRange _ (by omega) (by omega), ih (nt + 1) _ (by omega) (by omega),
        List.range_succ_eq_map (fuel + 1)]
      simp only [visitIndex, List.map_cons, List.map_map, List.append_assoc,
        List.singleton_append, Nat.cast_zero, add_zero]
      congr 2
      apply List.map_congr_left
      intro i _
      simp only [Function.comp, Nat.succ_eq_add_one, Nat.cast_add, Nat.cast_one]
      omega

theorem innerLoopInt_visitIndex_extends (batchEnd : Int) (fuel : Nat) (nt : Int) (s : List Int) :
    s <+: innerLoopInt visitIndex batchEnd fuel nt s := by
  induction fuel generalizing nt s with
  | zero => exact List.prefix_refl s
  | succ fuel ih =>
    rw [innerLoopInt]
    split_ifs
    · exact (List.prefix_append s [nt]).trans (ih _ _)
    · exact List.prefix_refl s

theorem batchLoopInt_visitIndex_extends (B nnn : Int) (passes : Nat) (batch : Int)
    (s : List Int) :
    s <+: (batchLoopInt B visitIndex nnn passes batch s).2 := by
  induction passes generalizing batch s with
  | zero => exact List.prefix_refl s
  | succ passes ih =>
    rw [batchLoopInt]
    split_ifs
    · exact (innerLoopInt_visitIndex_extends _ _ _ s).trans (ih _ _)
    · exact List.prefix_refl s

/-- While `NbTriangles + B` stays in the range of `Standard_Integer`, the batch loop on
`Standard_Integer` counters computes what the single ascending pass over `1..N` computes,
for every body and state; it visits the indices `1, ..., N` in order, whatever the
positive batch size. -/
theorem batchLoopInt_ascending_in_range {σ : Type} (B N : Nat) (hB : 0 < B)
    (hN : N + B ≤ 2147483647) (body : Int → σ → σ) (s : σ) :
    (batchLoopInt B body N N 0 s).2
        = (List.range' 1 N).foldl (fun (s : σ) (nt : Nat) => body (nt : Int) s) s
      ∧ (batchLoopInt B visitIndex N N 0 []).2 = (List.range' 1 N).map Int.ofNat
      ∧ (batchLoopInt B body N N 0 s).2 = batchLoop B (fun n s => body n s) N N 0 s := by
  have h1 : ∀ (τ : Type) (f : Int → τ → τ) (a : τ),
      (batchLoopInt B f N N 0 a).2
        = (List.range' 1 N).foldl (fun (s : τ) (nt : Nat) => f (nt : Int) s) a := by
    intro τ f a
    have := batchLoopInt_eq_batchLoop B N f hN N 0 a
    rw [Nat.cast_zero] at this
    rw [this]
    simpa using batchLoop_eq B hB (fun n s => f n s) N N 0 a (by omega)
  refine ⟨h1 σ body s, ?_, ?_⟩
  · rw [h1, foldl_visitIndex]
    simp
  · have := batchLoopInt_eq_batchLoop B N body hN N 0 s
    rw [Nat.cast_zero] at this
    exact this

/-- C2, evaluated at `NbTriangles = 2147483001` with the batch size `1000` of the code: the
first `2147483` batches visit the indices `1..2147483000` and leave the offset
`2147483000`, still below `nnn`; there `batch + BATCH_SIZE` leaves the range of
`Standard_Integer` and wraps to `-2147483296`, so the next batch visits nothing and the
batch after it visits the indices from `-2147483295` on. However many batches are run,
the sequence of visited indices is never `1, ..., 2147483001`. -/
theorem batchLoopInt_overflow :
    (2147483000 : Int) < 2147483001
      ∧ wrapInt (2147483000 + 1000) = -2147483296
      ∧ batchLoopInt 1000 visitIndex 2147483001 2147483 0 []
          = (2147483000, (List.range' 1 2147483000).map Int.ofNat)
      ∧ batchLoopInt 1000 visitIndex 2147483001 2147484 0 []
          = (-2147483296, (List.range' 1 2147483000).map Int.ofNat)
      ∧ batchLoopInt 1000 visitIndex 2147483001 2147485 0 []
          = (-2147482296, (List.range' 1 2147483000).map Int.ofNat
              ++ (List.range 1000).map (fun i : Nat => -2147483295 + (i : Int)))
      ∧ ∀ passes : Nat, (batchLoopInt 1000 visitIndex 2147483001 passes 0 []).2
          ≠ (List.range' 1 2147483001).map Int.ofNat := by
  have hw : wrapInt (2147483000 + 1000) = -2147483296 := by decide
  have hA : ∀ p : Nat, p ≤ 2147483 → batchLoopInt 1000 visitIndex 2147483001 p 0 []
      = (((p * 1000 : Nat) : Int), (List.range' 1 (p * 1000)).map Int.ofNat) := by
    intro p hp
    have := batchLoopInt_full_batches 1000 2147483001 visitIndex (by decide) (by decide) p 0 []
      (by omega)
    rw [foldl_visitIndex] at this
    simpa using this
  have hA' := hA 2147483 (le_refl _)
  have hm : (2147483 * 1000 : Nat) = 2147483000 := by decide
  rw [hm] at hA'
  have hB : ∀ v : List Int, batchLoopInt 1000 visitIndex 2147483001 1 2147483000 v
      = (-2147483296, v) := by
    intro v
    have h1 : (2147483000 : Int) < 2147483001 := by decide
    have h2 : (min (-2147483296 : Int) 2147483001 - 2147483000).toNat = 0 := by decide
    simp only [batchLoopInt, if_pos h1, hw, h2, innerLoopInt]
  have hC : ∀ v : List Int, batchLoopInt 1000 visitIndex 2147483001 1 (-2147483296) v
      = (-2147482296, v ++ (List.range 1000).map (fun i : Nat => -2147483295 + (i : Int))) := by
    intro v
    have h1 : (-2147483296 : Int) < 2147483001 := by decide
    have h2 : wrapInt (-2147483296 + 1000) = -2147482296 := by decide
    have h3 : wrapInt (-2147483296 + 1) = -2147483295 := by decide
    have h4 : (min (-2147482296 : Int) 2147483001 - -2147483296).toNat = 1000 := by decide
    have h5 : min (-2147482296 : Int) 2147483001 = -2147482296 := by decide
    simp only [batchLoopInt, if_pos h1, h2, h3, h4]
    rw [h5, innerLoopInt_visitIndex _ _ _ _ (by decide) (by decide) (by decide)]
  have h84 : batchLoopInt 1000 visitIndex 2147483001 2147484 0 []
      = (-2147483296, (List.range' 1 2147483000).map Int.ofNat) := by
    rw [show (2147484 : Nat) = 2147483 + 1 from rfl, batchLoopInt_add, hA']
    exact hB _
  have h85 : batchLoopInt 1000 visitIndex 2147483001 2147485 0 []
      = (-2147482296, (List.range' 1 2147483000).map Int.ofNat
          ++ (List.range 1000).map (fun i : Nat => -2147483295 + (i : Int))) := by
    rw [show (2147485 : Nat) = 2147484 + 1 from rfl, batchLoopInt_add, h84]
    exact hC _
  refine ⟨by decide, hw, hA', h84, h85, ?_⟩
  intro passes hEq
  have hlast : (2147483001 : Int) ∈ (List.range' 1 2147483001).map Int.ofNat :=
    List.mem_map.mpr ⟨2147483001, List.mem_range'_1.mpr ⟨by decide, by decide⟩, rfl⟩
  have hpos : ∀ x ∈ (List.range' 1 2147483001).map Int.ofNat, (0 : Int) ≤ x := by
    intro x hx
    obtain ⟨n, _, rfl⟩ := List.mem_map.mp hx
    exact Int.ofNat_nonneg n
  have hshort : ∀ m : Nat, m ≤ 2147483000 →
      (2147483001 : Int) ∉ (List.range' 1 m).map Int.ofNat := by
    intro m hm hx
    obtain ⟨n, hn, hn'⟩ := List.mem_map.mp hx
    have := (List.mem_range'_1.mp hn).2
    have h' : (n : Int) = 2147483001 := hn'
    omega
  by_cases hp : passes ≤ 2147483
  · rw [hA passes hp] at hEq
    rw [← hEq] at hlast
    exact hshort _ (by omega) hlast
  · obtain ⟨extra, rfl⟩ : ∃ extra, passes = 2147484 + extra := ⟨passes - 2147484, by omega⟩
    cases extra with
    | zero =>
      rw [Nat.add_zero, h84] at hEq
      rw [← hEq] at hlast
      exact hshort _ (le_refl _) hlast
    | succ extra =>
      rw [show 2147484 + (extra + 1) = 2147485 + extra by omega, batchLoopInt_add, h85] at hEq
      have hpre := batchLoopInt_visitIndex_extends 1000 2147483001 extra (-2147482296)
        ((List.range' 1 2147483000).map Int.ofNat
          ++ (List.range 1000).map (fun i : Nat => -2147483295 + (i : Int)))
      rw [hEq] at hpre
      have hneg : (-2147483295 : Int) ∈ (List.range' 1 2147483000).map Int.ofNat
          ++ (List.range 1000).map (fun i : Nat => -2147483295 + (i : Int)) :=
        List.mem_append.mpr (Or.inr (List.mem_map.mpr ⟨0, List.mem_range.mpr (by decide),
          by simp⟩))
      have := hpos _ (hpre.subset hneg)
      omega

/-! ## Records and normals sub-arrays -/

theorem DATA.hasKey_setField_self (k : String) (v : DATA R) (fields : List (String × DATA R)) :
    (DATA.obj (DATA.setField k v fields)).hasKey k = true := by
  induction fields with
  | nil => simp [DATA.setField, DATA.hasKey]
  | cons p rest ih =>
    by_cases h : p.1 = k
    · simp [DATA.setField, DATA.hasKey, h]
    · simp only [DATA.hasKey] at ih
      simp [DATA.setField, DATA.hasKey, h, ih]

theorem DATA.hasKey_setField_of_ne (k k' : String) (v : DATA R) (h : k' ≠ k)
    (fields : List (String × DATA R)) :
    (DATA.obj (DATA.setField k v fields)).hasKey k' = (DATA.obj fields).hasKey k' := by
  induction fields with
  | nil => simp [DATA.setField, DATA.hasKey, Ne.symm h]
  | cons p rest ih =>
    simp only [DATA.hasKey] at ih
    by_cases hp : p.1 = k
    · have hk : ¬ p.1 = k' := fun h2 => h (h2.symm.trans hp)
      simp [DATA.setField, DATA.hasKey, hp, Ne.symm h, hk]
    · simp [DATA.setField, DATA.hasKey, hp, ih]

theorem DATA.erase_setField_self (k : String) (v : DATA R) (fields : List (String × DATA R)) :
    (DATA.obj (DATA.setField k v fields)).erase k = (DATA.obj fields).erase k := by
  induction fields with
  | nil => simp [DATA.setField, DATA.erase]
  | cons p rest ih =>
    simp only [DATA.erase, DATA.obj.injEq] at ih
    by_cases hp : p.1 = k
    · simp [DATA.setField, DATA.erase, hp]
    · simp [DATA.setField, DATA.erase, hp, ih]

/-! ## The face loop -/

theorem tessInfo_structOnly (env : Externals R) (aTr : Poly_Triangulation R)
    (aLocation : TopLoc_Location R) (aSurface : Option (Geom_Surface R)) (faceOut : DATA R) :
    tessInfo env true aTr aLocation aSurface faceOut = .ok faceOut := by
  simp [tessInfo]

theorem tessInfo_full (env : Externals R) (aTr : Poly_Triangulation R)
    (aLocation : TopLoc_Location R) (aSurface : Geom_Surface R) (faceOut : DATA R) :
    tessInfo env false aTr aLocation (some aSurface) faceOut
      = .ok (faceOut.set "tess" (.arr ((aTr.Triangles.filter (inRange aTr.NbNodes)).map
          (triangleRecord env aTr aLocation aSurface)))) := by
  simp [tessInfo, DATA.Array, writeFaceTessellation_eq]

theorem tessInfo_nullSurface (env : Externals R) (aTr : Poly_Triangulation R)
    (aLocation : TopLoc_Location R) (faceOut : DATA R)
    (h : ¬ (aTr.NbTriangles = 0 ∨ aTr.NbNodes = 0)) :
    tessInfo env false aTr aLocation none faceOut = .undefined := by
  simp [tessInfo, writeFaceTessellation, h]

theorem hasMesh_iff (aFace : TopoDS_Face R) :
    hasMesh (some aFace) = true ↔
      ∃ aTr, aFace.Triangulation = some aTr ∧ ¬ (aTr.NbTriangles = 0 ∨ aTr.NbNodes = 0) := by
  cases hT : aFace.Triangulation with
  | none => simp [hasMesh, hT]
  | some aTr => simp [hasMesh, hT, not_or]

theorem faceTry_skip (env : Externals R) (so : Bool) (heap : Nat → Nat) (k : Nat)
    (f : Option (TopoDS_Face R)) (h : hasMesh f = false) :
    faceTry env so heap k f = (.ok none, k) := by
  cases f with
  | none => rfl
  | some aFace =>
    cases hT : aFace.Triangulation with
    | none => simp [faceTry, hT]
    | some aTr =>
      have : aTr.NbTriangles = 0 ∨ aTr.NbNodes = 0 := by
        by_contra hc
        have := (hasMesh_iff aFace).mpr ⟨aTr, hT, hc⟩
        rw [h] at this
        cases this
      simp [faceTry, hT, this]

theorem faceTry_undefined (env : Externals R) (heap : Nat → Nat) (k : Nat)
    (f : Option (TopoDS_Face R)) (h : nullSurface f = true) :
    faceTry env false heap k f = (.undefined, k) := by
  cases f with
  | none => simp [nullSurface] at h
  | some aFace =>
    simp only [nullSurface, Bool.and_eq_true, Option.isNone_iff_eq_none] at h
    obtain ⟨aTr, hT, hne⟩ := (hasMesh_iff aFace).mp h.1
    simp [faceTry, hT, hne, h.2, surfaceInfo, tessInfo_nullSurface env aTr _ _ hne]

/-- The surface step on the empty face object: it raises exactly when the surface is a
plane and the surface writer raises. -/
theorem surfaceInfo_cases (env : Externals R) (aSurface : Option (Geom_Surface R)) :
    (∃ fields, surfaceInfo env aSurface DATA.Object = .ok (.obj fields)
        ∧ (DATA.obj fields).hasKey "surface" = aSurface.isSome
        ∧ (match aSurface with
            | some s => s.IsPlane && !returns (env.surfaceWrite s)
            | none => false) = false)
      ∨ (∃ e, surfaceInfo env aSurface DATA.Object = .error e
        ∧ (match aSurface with
            | some s => s.IsPlane && !returns (env.surfaceWrite s)
            | none => false) = true) := by
  cases aSurface with
  | none => exact Or.inl ⟨[], rfl, rfl, rfl⟩
  | some s =>
    cases hp : s.IsPlane with
    | false =>
      exact Or.inl ⟨_, by simp [surfaceInfo, hp, DATA.Object, DATA.set]; rfl,
        by simp [DATA.setField, DATA.hasKey], by simp [hp]⟩
    | true =>
      cases hw : env.surfaceWrite s with
      | error e => exact Or.inr ⟨e, by simp [surfaceInfo, hp, hw], by simp [hp, hw, returns]⟩
      | ok sd =>
        exact Or.inl ⟨_, by simp [surfaceInfo, hp, hw, DATA.Object, DATA.set]; rfl,
          by simp [DATA.setField, DATA.hasKey], by simp [hp, hw, returns]⟩

/-- The tessellation step when `writeFaceTessellation` is not given a null surface. -/
theorem tessInfo_cases (env : Externals R) (so : Bool) (aTr : Poly_Triangulation R)
    (aLocation : TopLoc_Location R) (aSurface : Option (Geom_Surface R))
    (hs : so = true ∨ aSurface.isNone = false) (fields : List (String × DATA R)) :
    ∃ fields', tessInfo env so aTr aLocation aSurface (.obj fields) = .ok (.obj fields')
      ∧ (DATA.obj fields').hasKey "tess" = (!so || (DATA.obj fields).hasKey "tess")
      ∧ (DATA.obj fields').hasKey "surface" = (DATA.obj fields).hasKey "surface" := by
  cases so with
  | true => exact ⟨fields, tessInfo_structOnly env aTr _ _ _, by simp, rfl⟩
  | false =>
    cases aSurface with
    | none => simp at hs
    | some s =>
      refine ⟨_, tessInfo_full env aTr _ s _, ?_, ?_⟩
      · simp [DATA.hasKey_setField_self]
      · exact DATA.hasKey_setField_of_ne _ _ _ (by decide) _

/-- The face object before its "ptr" is set, for a face with a mesh on which nothing
raises. -/
theorem faceTry_good (env : Externals R) (so : Bool) (f : Option (TopoDS_Face R))
    (hm : hasMesh f = true) (hs : so = true ∨ nullSurface f = false)
    (hf : faceFaults env f = false) :
    ∃ fields : List (String × DATA R),
      (∀ (heap : Nat → Nat) (k : Nat),
        faceTry env so heap k f
          = (.ok (some ((DATA.obj fields).set "ptr" (.int (heap k)))), k + 1))
      ∧ (DATA.obj fields).hasKey "inverted" = true ∧ (DATA.obj fields).hasKey "ref" = true
      ∧ (DATA.obj fields).hasKey "tess" = !so
      ∧ (∀ aFace, f = some aFace → (DATA.obj fields).hasKey "surface" = aFace.Surface.isSome) := by
  cases f with
  | none => simp [hasMesh] at hm
  | some aFace =>
    obtain ⟨aTr, hT, hne⟩ := (hasMesh_iff aFace).mp hm
    simp only [faceFaults, Bool.or_eq_false_iff, Bool.not_eq_false'] at hf
    obtain ⟨hf1, hf2⟩ := hf
    have hs' : so = true ∨ aFace.Surface.isNone = false := by
      rcases hs with h | h
      · exact Or.inl h
      · simp only [nullSurface, hm, Bool.true_and] at h
        exact Or.inr h
    cases hr : env.getStableRefernce aFace with
    | error e => simp [hr, returns] at hf2
    | ok ref =>
      rcases surfaceInfo_cases env aFace.Surface with ⟨fs1, h1, hk1, _⟩ | ⟨e, _, h2⟩
      · obtain ⟨fs2, h2, hk2, hk2'⟩ := tessInfo_cases env so aTr aFace.Location aFace.Surface hs' fs1
        have hno : (DATA.obj fs1).hasKey "tess" = false := by
          cases hS : aFace.Surface with
          | none =>
            rw [hS] at h1
            simp only [surfaceInfo, DATA.Object, Except.ok.injEq, DATA.obj.injEq] at h1
            rw [← h1]
            rfl
          | some s =>
            rw [hS] at h1
            cases hp : s.IsPlane with
            | false =>
              simp only [surfaceInfo, hp, DATA.Object, DATA.set, DATA.setField,
                Bool.false_eq_true, if_false, Except.ok.injEq, DATA.obj.injEq] at h1
              rw [← h1]
              simp [DATA.hasKey]
            | true =>
              cases hw : env.surfaceWrite s with
              | error e => simp [surfaceInfo, hp, hw] at h1
              | ok sd =>
                simp only [surfaceInfo, hp, hw, DATA.Object, DATA.set, DATA.setField,
                  if_true, Except.ok.injEq, DATA.obj.injEq] at h1
                rw [← h1]
                simp [DATA.hasKey]
        refine ⟨DATA.setField "ref" ref (DATA.setField "inverted"
          (.bool (decide (aFace.Orientation = TopAbs_Orientation.REVERSED))) fs2),
          fun heap k => ?_, ?_, ?_, ?_, ?_⟩
        · simp only [faceTry, hT, hne, if_false, h1, h2, hr, DATA.set]
        · rw [DATA.hasKey_setField_of_ne _ _ _ (by decide), DATA.hasKey_setField_self]
        · exact DATA.hasKey_setField_self _ _ _
        · rw [DATA.hasKey_setField_of_ne _ _ _ (by decide),
            DATA.hasKey_setField_of_ne _ _ _ (by decide), hk2, hno]
          simp
        · intro aFace' hf'
          cases hf'
          rw [DATA.hasKey_setField_of_ne _ _ _ (by decide),
            DATA.hasKey_setField_of_ne _ _ _ (by decide), hk2', hk1]
      · rw [h2] at hf1
        cases hf1

theorem faceTry_bad (env : Externals R) (so : Bool) (heap : Nat → Nat) (k : Nat)
    (f : Option (TopoDS_Face R))
    (hm : hasMesh f = true) (hs : so = true ∨ nullSurface f = false)
    (hf : faceFaults env f = true) :
    ∃ e k', faceTry env so heap k f = (.raise e, k') := by
  cases f with
  | none => simp [hasMesh] at hm
  | some aFace =>
    obtain ⟨aTr, hT, hne⟩ := (hasMesh_iff aFace).mp hm
    have hs' : so = true ∨ aFace.Surface.isNone = false := by
      rcases hs with h | h
      · exact Or.inl h
      · simp only [nullSurface, hm, Bool.true_and] at h
        exact Or.inr h
    rcases surfaceInfo_cases env aFace.Surface with ⟨fs1, h1, _, hn⟩ | ⟨e, h1, _⟩
    · obtain ⟨fs2, h2, _, _⟩ := tessInfo_cases env so aTr aFace.Location aFace.Surface hs' fs1
      cases hr : env.getStableRefernce aFace with
      | ok ref =>
        rw [faceFaults, hn, hr] at hf
        simp [returns] at hf
      | error e =>
        exact ⟨e, k + 1, by simp only [faceTry, hT, hne, if_false, h1, h2, hr]⟩
    · exact ⟨e, k, by simp only [faceTry, hT, hne, if_false, h1]⟩

theorem faceTry_ok_inv (env : Externals R) (so : Bool) (heap : Nat → Nat) (k k' : Nat)
    (f : Option (TopoDS_Face R)) (e : DATA R)
    (h : faceTry env so heap k f = (.ok (some e), k')) :
    hasMesh f = true ∧ faceFaults env f = false ∧ (so = true ∨ nullSurface f = false) := by
  have hm : hasMesh f = true := by
    by_contra hc
    rw [faceTry_skip env so heap k f (by simpa using hc)] at h
    cases h
  have hs : so = true ∨ nullSurface f = false := by
    cases so with
    | true => exact Or.inl rfl
    | false =>
      right
      by_contra hc
      rw [faceTry_undefined env heap k f (by simpa using hc)] at h
      cases h
  refine ⟨hm, ?_, hs⟩
  by_contra hc
  obtain ⟨e', k'', h'⟩ := faceTry_bad env so heap k f hm hs (by simpa using hc)
  rw [h'] at h
  cases h

theorem faceEntry_good (env : Externals R) (so : Bool) (f : Option (TopoDS_Face R))
    (heap : Nat → Nat) (k k' : Nat) (e : DATA R)
    (h : faceTry env so heap k f = (.ok (some e), k')) :
    e.erase "ptr" = faceEntry env so f := by
  obtain ⟨hm, hf, hs⟩ := faceTry_ok_inv env so heap k k' f e h
  obtain ⟨fields, hall, _⟩ := faceTry_good env so f hm hs hf
  rw [hall heap k] at h
  simp only [Prod.mk.injEq, Outcome.ok.injEq, Option.some.injEq] at h
  rw [faceEntry, hall (fun _ => 0) 0, ← h.1]
  simp only [DATA.set, DATA.erase_setField_self]

theorem faceLoop_not_raise (env : Externals R) (so : Bool) (heap : Nat → Nat)
    (faces : List (Option (TopoDS_Face R))) (k : Nat) (out : List (DATA R))
    (e : Standard_Failure) :
    faceLoop env so heap faces k out ≠ .raise e := by
  induction faces generalizing k out with
  | nil => simp [faceLoop]
  | cons f rest ih =>
    rcases hft : faceTry env so heap k f with ⟨o, k'⟩
    cases o with
    | ok a =>
      cases a with
      | none => simpa [faceLoop, hft] using ih k' out
      | some faceOut => simpa [faceLoop, hft] using ih k' (out ++ [faceOut])
    | raise e' => simpa [faceLoop, hft] using ih k' out
    | undefined => simp [faceLoop, hft]

theorem faceLoop_mem (env : Externals R) (so : Bool) (heap : Nat → Nat)
    (faces : List (Option (TopoDS_Face R))) (k : Nat) (out res : List (DATA R))
    (h : faceLoop env so heap faces k out = .ok res) :
    ∀ e ∈ res, e ∈ out ∨
      ∃ f ∈ faces, ∃ k' k'', faceTry env so heap k' f = (.ok (some e), k'') := by
  induction faces generalizing k out with
  | nil =>
    simp only [faceLoop, Outcome.ok.injEq] at h
    intro e he
    exact Or.inl (h ▸ he)
  | cons f rest ih =>
    rcases hft : faceTry env so heap k f with ⟨o, k'⟩
    have step : ∀ out', faceLoop env so heap rest k' out' = .ok res →
        (∀ e ∈ out', e ∈ out ∨ faceTry env so heap k f = (.ok (some e), k')) →
        ∀ e ∈ res, e ∈ out ∨
          ∃ g ∈ f :: rest, ∃ k1 k2, faceTry env so heap k1 g = (.ok (some e), k2) := by
      intro out' hrest hout e he
      rcases ih k' out' hrest e he with h1 | ⟨g, hg, k1, k2, h2⟩
      · rcases hout e h1 with h3 | h3
        · exact Or.inl h3
        · exact Or.inr ⟨f, List.mem_cons_self _ _, k, k', h3⟩
      · exact Or.inr ⟨g, List.mem_cons_of_mem _ hg, k1, k2, h2⟩
    cases o with
    | ok a =>
      cases a with
      | none =>
        simp only [faceLoop, hft] at h
        exact step out h (fun e he => Or.inl he)
      | some faceOut =>
        simp only [faceLoop, hft] at h
        refine step (out ++ [faceOut]) h (fun e he => ?_)
        rcases List.mem_append.mp he with h1 | h1
        · exact Or.inl h1
        · rw [List.mem_singleton] at h1
          subst h1
          exact Or.inr hft
    | raise e' =>
      simp only [faceLoop, hft] at h
      exact step out h (fun e he => Or.inl he)
    | undefined => simp [faceLoop, hft] at h

/-- The face loop when `writeFaceTessellation` is never given a null surface: it returns,
with one face object for each face that has a mesh and on which nothing raises. -/
theorem faceLoop_entries (env : Externals R) (so : Bool) (heap : Nat → Nat)
    (faces : List (Option (TopoDS_Face R)))
    (hs : so = true ∨ ∀ f ∈ faces, nullSurface f = false) (k : Nat) (out : List (DATA R)) :
    ∃ new : List (DATA R), faceLoop env so heap faces k out = .ok (out ++ new)
      ∧ new.map (DATA.erase "ptr")
          = (faces.filter (fun f => hasMesh f && !faceFaults env f)).map (faceEntry env so) := by
  induction faces generalizing k out with
  | nil => exact ⟨[], by simp [faceLoop], by simp⟩
  | cons f rest ih =>
    have hs' : so = true ∨ ∀ g ∈ rest, nullSurface g = false := by
      rcases hs with h | h
      · exact Or.inl h
      · exact Or.inr (fun g hg => h g (List.mem_cons_of_mem _ hg))
    have hsf : so = true ∨ nullSurface f = false := by
      rcases hs with h | h
      · exact Or.inl h
      · exact Or.inr (h f (List.mem_cons_self _ _))
    by_cases hm : hasMesh f = true
    · by_cases hf : faceFaults env f = true
      · obtain ⟨e, k', hft⟩ := faceTry_bad env so heap k f hm hsf hf
        obtain ⟨new, h1, h2⟩ := ih hs' k' out
        exact ⟨new, by simp only [faceLoop, hft, h1], by simp [hm, hf, h2]⟩
      · have hf' : faceFaults env f = false := by simpa using hf
        obtain ⟨fields, hall, _⟩ := faceTry_good env so f hm hsf hf'
        obtain ⟨new, h1, h2⟩ := ih hs' (k + 1) (out ++ [(DATA.obj fields).set "ptr" (.int (heap k))])
        refine ⟨(DATA.obj fields).set "ptr" (.int (heap k)) :: new, ?_, ?_⟩
        · simp only [faceLoop, hall heap k, h1, List.append_assoc, List.singleton_append]
        · simp only [List.map_cons, h2, List.filter_cons, hm, hf', Bool.not_false, Bool.and_self,
            if_true, faceEntry_good env so f heap k (k + 1) _ (hall heap k)]
    · have hm' : hasMesh f = false := by simpa using hm
      obtain ⟨new, h1, h2⟩ := ih hs' k out
      exact ⟨new, by simp only [faceLoop, faceTry_skip env so heap k f hm', h1],
        by simp [hm', h2]⟩

theorem facesOf_out (facesOut : List (DATA R)) :
    facesOf ((DATA.Object : DATA R).set "faces" (.arr facesOut)) = facesOut := by
  simp [facesOf, DATA.Object, DATA.set, DATA.setField, DATA.get?, DATA.items]

theorem interrogate_ok_of_faceLoop (env : Externals R) (shape : TopoDS_Shape R) (d : R)
    (so : Bool) (heap : Nat → Nat) (faces : List (Option (TopoDS_Face R)))
    (facesOut : List (DATA R))
    (hmesh : shape.IncrementalMesh (actualDeflection d) true (1 / 2) false = .ok faces)
    (hloop : faceLoop env so heap faces 0 [] = .ok facesOut) :
    interrogate env (some shape) d so heap
      = .ok ((DATA.Object : DATA R).set "faces" (.arr facesOut)) := by
  simp only [interrogate, mesherArguments, hmesh, hloop]

/-! ## `interrogate` -/

/-- C4, as stated, fails: a shape with one face that has a mesh, and on which the
identity assignment raises, gives an empty faces array although one face has a
triangulation that is not null and not empty. -/
theorem faces_length_counterexample :
    interrogate sampleEnv (some (sampleShape [some (sampleFace 0 (some samplePlane))])) 15 false
        (fun k => k) = .ok (.obj [("faces", .arr [])])
      ∧ (facesOf (.obj [("faces", .arr [])] : DATA ℚ)).length = 0
      ∧ List.countP hasMesh [some (sampleFace 0 (some samplePlane))] = 1 :=
  ⟨rfl, rfl, rfl⟩

/-- C4, amended: when the mesher succeeds and `writeFaceTessellation` is not given a null
surface (struct-only mode, or no face with a mesh has a null surface), `interrogate`
returns a document whose faces array has as many elements as there are enumerated faces
with a triangulation that is not null and has a triangle and a node, and on which
neither the surface writer nor the identity assignment raises. -/
theorem faces_length_eq_count (env : Externals R) (shape : TopoDS_Shape R) (d : R) (so : Bool)
    (heap : Nat → Nat) (faces : List (Option (TopoDS_Face R)))
    (hmesh : shape.IncrementalMesh (actualDeflection d) true (1 / 2) false = .ok faces)
    (hs : so = true ∨ ∀ f ∈ faces, nullSurface f = false) :
    ∃ doc, interrogate env (some shape) d so heap = .ok doc
      ∧ (facesOf doc).length = faces.countP (fun f => hasMesh f && !faceFaults env f) := by
  obtain ⟨new, h1, h2⟩ := faceLoop_entries env so heap faces hs 0 []
  refine ⟨_, interrogate_ok_of_faceLoop env shape d so heap faces _ hmesh h1, ?_⟩
  rw [facesOf_out, List.countP_eq_length_filter]
  have := congrArg List.length h2
  simpa using this

/-- C4, amended, at a shape with a good plane face, a face on which the identity
assignment raises, a null face and a good curved face, in full mode. -/
theorem faces_length_eq_count_witness :
    (sampleShape [some (sampleFace 5 (some samplePlane)), some (sampleFace 0 (some samplePlane)),
        none, some (sampleFace 6 (some sampleCurved))]).IncrementalMesh
        (actualDeflection 1) true (1 / 2) false
        = .ok [some (sampleFace 5 (some samplePlane)), some (sampleFace 0 (some samplePlane)),
          none, some (sampleFace 6 (some sampleCurved))]
      ∧ (∀ f ∈ [some (sampleFace 5 (some samplePlane)), some (sampleFace 0 (some samplePlane)),
          none, some (sampleFace 6 (some sampleCurved))], nullSurface f = false)
      ∧ ∃ doc, interrogate sampleEnv (some (sampleShape [some (sampleFace 5 (some samplePlane)),
          some (sampleFace 0 (some samplePlane)), none,
          some (sampleFace 6 (some sampleCurved))])) 1 false (fun k => k) = .ok doc
        ∧ (facesOf doc).length = List.countP (fun f => hasMesh f && !faceFaults sampleEnv f)
          [some (sampleFace 5 (some samplePlane)), some (sampleFace 0 (some samplePlane)),
            none, some (sampleFace 6 (some sampleCurved))] :=
  ⟨rfl, by decide,
    faces_length_eq_count sampleEnv _ 1 false (fun k => k) _ rfl (Or.inr (by decide))⟩

/-- C5, as stated, fails on "ptr": the face whose identity assignment raises has
allocated its copy before, so the good face after it gets the address of the second
allocation, and the address of the first one when the bad face is not in the shape. -/
theorem good_entries_identical_counterexample :
    interrogate sampleEnv
        (some (sampleShape [some (sampleFace 0 (some samplePlane)),
          some (sampleFace 5 (some samplePlane))])) 15 true (fun k => 4096 + 64 * k)
        = .ok (.obj [("faces", .arr [.obj [("surface", .obj [("TYPE", .str "Plane")]),
            ("inverted", .bool true), ("ref", .int 5), ("ptr", .int 4160)]])])
      ∧ interrogate sampleEnv
        (some (sampleShape [some (sampleFace 5 (some samplePlane))])) 15 true
          (fun k => 4096 + 64 * k)
        = .ok (.obj [("faces", .arr [.obj [("surface", .obj [("TYPE", .str "Plane")]),
            ("inverted", .bool true), ("ref", .int 5), ("ptr", .int 4096)]])])
      ∧ (.obj [("surface", .obj [("TYPE", .str "Plane")]),
            ("inverted", .bool true), ("ref", .int 5), ("ptr", .int 4160)] : DATA ℚ)
          ≠ .obj [("surface", .obj [("TYPE", .str "Plane")]),
            ("inverted", .bool true), ("ref", .int 5), ("ptr", .int 4096)] :=
  ⟨rfl, rfl, by simp⟩

/-- C5, amended: for a shape whose faces are all good (a mesh, no fault of the surface
writer or of the identity assignment, no null surface given to
`writeFaceTessellation`) except one face on which the processing raises, `interrogate`
returns a document, as it does for the shape without the bad face, and the two faces
arrays hold, apart from the "ptr" values, the same face objects: those of the good
faces, one for each, in traversal order. -/
theorem good_entries_survive_bad_face (env : Externals R) (shape shape' : TopoDS_Shape R)
    (d : R) (so : Bool) (heap heap' : Nat → Nat)
    (before after : List (Option (TopoDS_Face R))) (bad : Option (TopoDS_Face R))
    (hmesh : shape.IncrementalMesh (actualDeflection d) true (1 / 2) false
      = .ok (before ++ bad :: after))
    (hmesh' : shape'.IncrementalMesh (actualDeflection d) true (1 / 2) false
      = .ok (before ++ after))
    (hgood : ∀ f ∈ before ++ after, hasMesh f = true ∧ faceFaults env f = false
      ∧ (so = true ∨ nullSurface f = false))
    (hbad : hasMesh bad = true ∧ faceFaults env bad = true
      ∧ (so = true ∨ nullSurface bad = false)) :
    ∃ doc doc', interrogate env (some shape) d so heap = .ok doc
      ∧ interrogate env (some shape') d so heap' = .ok doc'
      ∧ (facesOf doc).map (DATA.erase "ptr") = (before ++ after).map (faceEntry env so)
      ∧ (facesOf doc').map (DATA.erase "ptr") = (before ++ after).map (faceEntry env so) := by
  have hs' : so = true ∨ ∀ f ∈ before ++ after, nullSurface f = false := by
    cases so with
    | true => exact Or.inl rfl
    | false =>
      right
      intro f hf
      rcases (hgood f hf).2.2 with h | h
      · cases h
      · exact h
  have hs : so = true ∨ ∀ f ∈ before ++ bad :: after, nullSurface f = false := by
    rcases hs' with h | h
    · exact Or.inl h
    · rcases hbad.2.2 with hb | hb
      · exact Or.inl hb
      · right
        intro f hf
        rcases List.mem_append.mp hf with h1 | h1
        · exact h f (List.mem_append.mpr (Or.inl h1))
        · rcases List.mem_cons.mp h1 with h2 | h2
          · rw [h2]
            exact hb
          · exact h f (List.mem_append.mpr (Or.inr h2))
  have hfilter : ∀ l : List (Option (TopoDS_Face R)),
      (∀ f ∈ l, hasMesh f = true ∧ faceFaults env f = false
        ∧ (so = true ∨ nullSurface f = false)) →
      l.filter (fun f => hasMesh f && !faceFaults env f) = l := by
    intro l hl
    rw [List.filter_eq_self]
    intro f hf
    simp [(hl f hf).1, (hl f hf).2.1]
  have hfilter_bad : (before ++ bad :: after).filter (fun f => hasMesh f && !faceFaults env f)
      = before ++ after := by
    rw [List.filter_append, List.filter_cons]
    simp only [hbad.1, hbad.2.1, Bool.not_true, Bool.and_false, Bool.false_eq_true, if_false]
    rw [← List.filter_append, hfilter _ hgood]
  obtain ⟨new, h1, h2⟩ := faceLoop_entries env so heap (before ++ bad :: after) hs 0 []
  obtain ⟨new', h1', h2'⟩ := faceLoop_entries env so heap' (before ++ after) hs' 0 []
  refine ⟨_, _, interrogate_ok_of_faceLoop env shape d so heap _ _ hmesh h1,
    interrogate_ok_of_faceLoop env shape' d so heap' _ _ hmesh' h1', ?_, ?_⟩
  · rw [facesOf_out]
    simpa [hfilter_bad] using h2
  · rw [facesOf_out]
    simpa [hfilter _ hgood] using h2'

/-- C5, amended, at a shape with a good plane face, a face on which the identity
assignment raises and a good curved face, in full mode, with two different heaps. -/
theorem good_entries_survive_bad_face_witness :
    (sampleShape [some (sampleFace 5 (some samplePlane)), some (sampleFace 0 (some samplePlane)),
        some (sampleFace 6 (some sampleCurved))]).IncrementalMesh
        (actualDeflection 1) true (1 / 2) false
        = .ok ([some (sampleFace 5 (some samplePlane))] ++ some (sampleFace 0 (some samplePlane))
            :: [some (sampleFace 6 (some sampleCurved))])
      ∧ (sampleShape [some (sampleFace 5 (some samplePlane)),
          some (sampleFace 6 (some sampleCurved))]).IncrementalMesh
          (actualDeflection 1) true (1 / 2) false
        = .ok ([some (sampleFace 5 (some samplePlane))]
            ++ [some (sampleFace 6 (some sampleCurved))])
      ∧ (∀ f ∈ [some (sampleFace 5 (some samplePlane))]
            ++ [some (sampleFace 6 (some sampleCurved))],
          hasMesh f = true ∧ faceFaults sampleEnv f = false
            ∧ (false = true ∨ nullSurface f = false))
      ∧ (hasMesh (some (sampleFace 0 (some samplePlane))) = true
          ∧ faceFaults sampleEnv (some (sampleFace 0 (some samplePlane))) = true
          ∧ (false = true ∨ nullSurface (some (sampleFace 0 (some samplePlane))) = false))
      ∧ ∃ doc doc',
          interrogate sampleEnv (some (sampleShape [some (sampleFace 5 (some samplePlane)),
            some (sampleFace 0 (some samplePlane)), some (sampleFace 6 (some sampleCurved))]))
            1 false (fun k => k) = .ok doc
          ∧ interrogate sampleEnv (some (sampleShape [some (sampleFace 5 (some samplePlane)),
            some (sampleFace 6 (some sampleCurved))])) 1 false (fun k => 2 * k) = .ok doc'
          ∧ (facesOf doc).map (DATA.erase "ptr")
            = ([some (sampleFace 5 (some samplePlane))]
                ++ [some (sampleFace 6 (some sampleCurved))]).map (faceEntry sampleEnv false)
          ∧ (facesOf doc').map (DATA.erase "ptr")
            = ([some (sampleFace 5 (some samplePlane))]
                ++ [some (sampleFace 6 (some sampleCurved))]).map (faceEntry sampleEnv false) :=
  ⟨rfl, rfl, by decide, by decide,
    good_entries_survive_bad_face sampleEnv _ _ 1 false (fun k => k) (fun k => 2 * k)
      [some (sampleFace 5 (some samplePlane))] [some (sampleFace 6 (some sampleCurved))]
      (some (sampleFace 0 (some samplePlane))) rfl rfl (by decide) (by decide)⟩

/-- The raising of `interrogate`: it raises if and only if the shape is null or the mesher
raises; the
face loop never raises, whatever the surface writer, the tessellation or the identity
assignment of a face does; and when the mesher succeeds and `writeFaceTessellation` is
not given a null surface, `interrogate` returns a document. -/
theorem interrogate_raises_iff (env : Externals R) (aShape : Option (TopoDS_Shape R)) (d : R)
    (so : Bool) (heap : Nat → Nat) :
    ((∃ e, interrogate env aShape d so heap = .raise e) ↔
        (aShape = none ∨ ∃ shape e, aShape = some shape
          ∧ shape.IncrementalMesh (actualDeflection d) true (1 / 2) false = .error e))
      ∧ (∀ (faces : List (Option (TopoDS_Face R))) (k : Nat) (out : List (DATA R))
          (e : Standard_Failure), faceLoop env so heap faces k out ≠ .raise e)
      ∧ (∀ (shape : TopoDS_Shape R) (faces : List (Option (TopoDS_Face R))),
          aShape = some shape →
          shape.IncrementalMesh (actualDeflection d) true (1 / 2) false = .ok faces →
          (so = true ∨ ∀ f ∈ faces, nullSurface f = false) →
          ∃ doc, interrogate env aShape d so heap = .ok doc) := by
  refine ⟨?_, fun faces k out e => faceLoop_not_raise env so heap faces k out e, ?_⟩
  · cases aShape with
    | none => simp [interrogate]
    | some shape =>
      cases hmesh : shape.IncrementalMesh (actualDeflection d) true (1 / 2) false with
      | error e =>
        constructor
        · intro _
          exact Or.inr ⟨shape, e, rfl, hmesh⟩
        · intro _
          exact ⟨e, by simp only [interrogate, mesherArguments, hmesh]⟩
      | ok faces =>
        constructor
        · rintro ⟨e, he⟩
          exfalso
          simp only [interrogate, mesherArguments, hmesh] at he
          cases hloop : faceLoop env so heap faces 0 [] with
          | ok facesOut => simp [hloop] at he
          | raise e' => exact faceLoop_not_raise env so heap faces 0 [] e' hloop
          | undefined => simp [hloop] at he
        · rintro (h | ⟨shape', e, h1, h2⟩)
          · cases h
          · cases h1
            rw [hmesh] at h2
            cases h2
  · intro shape faces hshape hmesh hs
    subst hshape
    obtain ⟨new, h1, _⟩ := faceLoop_entries env so heap faces hs 0 []
    exact ⟨_, interrogate_ok_of_faceLoop env shape d so heap faces _ hmesh h1⟩

/-- The raising of `interrogate` at a shape with a face that raises and a good face, which
gives a document, and at a shape on which the mesher raises. -/
theorem interrogate_raises_iff_witness :
    (some (sampleShape [some (sampleFace 0 (some samplePlane)),
        some (sampleFace 5 (some sampleCurved))]) = some (sampleShape
          [some (sampleFace 0 (some samplePlane)), some (sampleFace 5 (some sampleCurved))]))
      ∧ (sampleShape [some (sampleFace 0 (some samplePlane)),
          some (sampleFace 5 (some sampleCurved))]).IncrementalMesh
            (actualDeflection 15) true (1 / 2) false
          = .ok [some (sampleFace 0 (some samplePlane)), some (sampleFace 5 (some sampleCurved))]
      ∧ (false = true ∨ ∀ f ∈ [some (sampleFace 0 (some samplePlane)),
          some (sampleFace 5 (some sampleCurved))], nullSurface f = false)
      ∧ (∃ doc, interrogate sampleEnv (some (sampleShape [some (sampleFace 0 (some samplePlane)),
          some (sampleFace 5 (some sampleCurved))])) 15 false (fun k => k) = .ok doc)
      ∧ ((∃ e, interrogate sampleEnv (some unmeshableShape) 15 false (fun k => k) = .raise e) ↔
          ((some unmeshableShape : Option (TopoDS_Shape ℚ)) = none ∨ ∃ shape e,
            some unmeshableShape = some shape
            ∧ shape.IncrementalMesh (actualDeflection 15) true (1 / 2) false = .error e)) :=
  ⟨rfl, rfl, Or.inr (by decide),
    (interrogate_raises_iff sampleEnv _ 15 false (fun k => k)).2.2 _ _ rfl rfl
      (Or.inr (by decide)),
    (interrogate_raises_iff sampleEnv (some unmeshableShape) 15 false (fun k => k)).1⟩

/-- C6, evaluated at a shape with a good plane face and a face with a mesh and a null
surface, in full mode: the shape is not null and the mesher succeeds, yet `interrogate`
neither returns a document nor raises, because `writeFaceTessellation` dereferences the
null surface handle at line 41 (the defect of C9); the face object of the good face is
lost with it. In struct-only mode the same shape gives both face objects. -/
theorem interrogate_no_document_without_fault :
    (some (sampleShape [some (sampleFace 5 (some samplePlane)), some (sampleFace 1 none)])
        : Option (TopoDS_Shape ℚ)) ≠ none
      ∧ (sampleShape [some (sampleFace 5 (some samplePlane)),
          some (sampleFace 1 none)]).IncrementalMesh (actualDeflection 15) true (1 / 2) false
        = .ok [some (sampleFace 5 (some samplePlane)), some (sampleFace 1 none)]
      ∧ interrogate sampleEnv (some (sampleShape [some (sampleFace 5 (some samplePlane)),
          some (sampleFace 1 none)])) 15 false (fun k => k) = .undefined
      ∧ (∀ doc, interrogate sampleEnv (some (sampleShape [some (sampleFace 5 (some samplePlane)),
          some (sampleFace 1 none)])) 15 false (fun k => k) ≠ .ok doc)
      ∧ (∀ e, interrogate sampleEnv (some (sampleShape [some (sampleFace 5 (some samplePlane)),
          some (sampleFace 1 none)])) 15 false (fun k => k) ≠ .raise e)
      ∧ interrogate sampleEnv (some (sampleShape [some (sampleFace 5 (some samplePlane)),
          some (sampleFace 1 none)])) 15 true (fun k => k)
        = .ok (.obj [("faces", .arr [
            .obj [("surface", .obj [("TYPE", .str "Plane")]), ("inverted", .bool true),
              ("ref", .int 5), ("ptr", .int 0)],
            .obj [("inverted", .bool true), ("ref", .int 1), ("ptr", .int 1)]])]) := by
  have h : interrogate sampleEnv (some (sampleShape [some (sampleFace 5 (some samplePlane)),
      some (sampleFace 1 none)])) 15 false (fun k => k) = .undefined := rfl
  refine ⟨by simp, rfl, h, ?_, ?_, rfl⟩
  · intro doc hdoc
    rw [h] at hdoc
    cases hdoc
  · intro e he
    rw [h] at he
    cases he

/-- C7: the deflection given to the mesher is `d` when `0 < d ≤ 1000` and `15` otherwise,
so it lies in `(0, 1000]`; the inputs `0`, `-5` and `5000` give the mesher the arguments
`(15, relative = true, angular = 1/2, parallel = false)` of the input `15`, and
`interrogate` gives the same result for them as for `15`. -/
theorem actualDeflection_clamp (d : R) :
    actualDeflection d = (if 0 < d ∧ d ≤ 1000 then d else 15)
      ∧ 0 < actualDeflection d ∧ actualDeflection d ≤ 1000
      ∧ mesherArguments d = (actualDeflection d, true, 1 / 2, false)
      ∧ mesherArguments (15 : R) = (15, true, 1 / 2, false)
      ∧ mesherArguments (0 : R) = mesherArguments (15 : R)
      ∧ mesherArguments (-5 : R) = mesherArguments (15 : R)
      ∧ mesherArguments (5000 : R) = mesherArguments (15 : R)
      ∧ (∀ (env : Externals R) (aShape : Option (TopoDS_Shape R)) (so : Bool)
          (heap : Nat → Nat),
          interrogate env aShape 0 so heap = interrogate env aShape 15 so heap
          ∧ interrogate env aShape (-5) so heap = interrogate env aShape 15 so heap
          ∧ interrogate env aShape 5000 so heap = interrogate env aShape 15 so heap) := by
  have h15 : actualDeflection (15 : R) = 15 := by
    unfold actualDeflection
    split_ifs <;> rfl
  have h0 : actualDeflection (0 : R) = 15 := by
    simp [actualDeflection]
  have h5 : actualDeflection (-5 : R) = 15 := by
    have : (-5 : R) ≤ 0 := by norm_num
    simp [actualDeflection, this]
  have h5000 : actualDeflection (5000 : R) = 15 := by
    have : (1000 : R) < 5000 := by norm_num
    simp [actualDeflection, this]
  have hm : ∀ a b : R, actualDeflection a = actualDeflection b →
      mesherArguments a = mesherArguments b := by
    intro a b hab
    simp [mesherArguments, hab]
  have hi : ∀ (a : R), actualDeflection a = 15 → ∀ (env : Externals R)
      (aShape : Option (TopoDS_Shape R)) (so : Bool) (heap : Nat → Nat),
      interrogate env aShape a so heap = interrogate env aShape 15 so heap := by
    intro a ha env aShape so heap
    simp only [interrogate, mesherArguments, ha, h15]
  refine ⟨?_, ?_, ?_, rfl, ?_, hm _ _ (h0.trans h15.symm), hm _ _ (h5.trans h15.symm),
    hm _ _ (h5000.trans h15.symm), fun env aShape so heap =>
      ⟨hi 0 h0 env aShape so heap, hi (-5) h5 env aShape so heap,
        hi 5000 h5000 env aShape so heap⟩⟩
  · unfold actualDeflection
    by_cases h1 : d ≤ 0
    · simp [h1, not_lt.mpr h1]
    · by_cases h2 : d > 1000
      · simp [h1, h2, not_le.mpr h2]
      · simp [h1, h2, not_le.mp h1, not_lt.mp h2]
  · unfold actualDeflection
    split_ifs with h
    · norm_num
    · exact not_le.mp (fun hc => h (Or.inl hc))
  · unfold actualDeflection
    split_ifs with h
    · norm_num
    · exact not_lt.mp (fun hc => h (Or.inr hc))
  · simp [mesherArguments, h15]

/-- C7 at the rational inputs `5000` and `3`. -/
theorem actualDeflection_clamp_witness :
    actualDeflection (5000 : ℚ) = 15 ∧ actualDeflection (3 : ℚ) = 3 :=
  ⟨(actualDeflection_clamp (5000 : ℚ)).1.trans (by norm_num),
    (actualDeflection_clamp (3 : ℚ)).1.trans (by norm_num)⟩

/-- C8: in a document that `interrogate` returns, every face object is the one built for
an enumerated face, has the names "inverted" and "ref", has the name "tess" exactly
when struct-only mode is off, and has the name "surface" exactly when the surface of
its face is not null. -/
theorem structOnly_keys (env : Externals R) (aShape : Option (TopoDS_Shape R)) (d : R)
    (so : Bool) (heap : Nat → Nat) (doc : DATA R)
    (h : interrogate env aShape d so heap = .ok doc) :
    ∃ (shape : TopoDS_Shape R) (faces : List (Option (TopoDS_Face R))),
      aShape = some shape
      ∧ shape.IncrementalMesh (actualDeflection d) true (1 / 2) false = .ok faces
      ∧ ∀ faceOut ∈ facesOf doc,
          faceOut.hasKey "tess" = !so
          ∧ faceOut.hasKey "inverted" = true
          ∧ faceOut.hasKey "ref" = true
          ∧ ∃ aFace : TopoDS_Face R, some aFace ∈ faces
              ∧ (∃ k k', faceTry env so heap k (some aFace) = (.ok (some faceOut), k'))
              ∧ faceOut.hasKey "surface" = aFace.Surface.isSome := by
  cases aShape with
  | none => simp [interrogate] at h
  | some shape =>
    cases hmesh : shape.IncrementalMesh (actualDeflection d) true (1 / 2) false with
    | error e =>
      simp only [interrogate, mesherArguments, hmesh] at h
      cases h
    | ok faces =>
      refine ⟨shape, faces, rfl, hmesh, ?_⟩
      simp only [interrogate, mesherArguments, hmesh] at h
      cases hloop : faceLoop env so heap faces 0 [] with
      | raise e => simp [hloop] at h
      | undefined => simp [hloop] at h
      | ok facesOut =>
        simp only [hloop, Outcome.ok.injEq] at h
        subst h
        rw [facesOf_out]
        intro faceOut hmem
        rcases faceLoop_mem env so heap faces 0 [] facesOut hloop faceOut hmem with
          h0 | ⟨f, hf, k, k', hft⟩
        · cases h0
        · obtain ⟨hm, hff, hs⟩ := faceTry_ok_inv env so heap k k' f faceOut hft
          obtain ⟨fields, hall, hk1, hk2, hk3, hk4⟩ := faceTry_good env so f hm hs hff
          have heq : faceOut = (DATA.obj fields).set "ptr" (.int (heap k)) := by
            have := hall heap k
            rw [hft] at this
            simp only [Prod.mk.injEq, Outcome.ok.injEq, Option.some.injEq] at this
            exact this.1
          cases f with
          | none => simp [hasMesh] at hm
          | some aFace =>
            have hne : ∀ key : String, key ≠ "ptr" →
                faceOut.hasKey key = (DATA.obj fields).hasKey key := by
              intro key hkey
              rw [heq]
              exact DATA.hasKey_setField_of_ne _ _ _ hkey _
            refine ⟨?_, ?_, ?_, aFace, hf, ⟨k, k', hft⟩, ?_⟩
            · rw [hne _ (by decide), hk3]
            · rw [hne _ (by decide), hk1]
            · rw [hne _ (by decide), hk2]
            · rw [hne _ (by decide), hk4 aFace rfl]

/-- C8 at a shape with one plane face, in struct-only mode. -/
theorem structOnly_keys_witness :
    interrogate sampleEnv (some (sampleShape [some (sampleFace 5 (some samplePlane))])) 15 true
        (fun k => k)
        = .ok (.obj [("faces", .arr [.obj [("surface", .obj [("TYPE", .str "Plane")]),
            ("inverted", .bool true), ("ref", .int 5), ("ptr", .int 0)]])])
      ∧ ∃ (shape : TopoDS_Shape ℚ) (faces : List (Option (TopoDS_Face ℚ))),
          some (sampleShape [some (sampleFace 5 (some samplePlane))]) = some shape
          ∧ shape.IncrementalMesh (actualDeflection 15) true (1 / 2) false = .ok faces
          ∧ ∀ faceOut ∈ facesOf (.obj [("faces", .arr [.obj [("surface",
                .obj [("TYPE", .str "Plane")]), ("inverted", .bool true), ("ref", .int 5),
                ("ptr", .int 0)]])] : DATA ℚ),
              faceOut.hasKey "tess" = !true
              ∧ faceOut.hasKey "inverted" = true
              ∧ faceOut.hasKey "ref" = true
              ∧ ∃ aFace : TopoDS_Face ℚ, some aFace ∈ faces
                  ∧ (∃ k k', faceTry sampleEnv true (fun k => k) k (some aFace)
                      = (.ok (some faceOut), k'))
                  ∧ faceOut.hasKey "surface" = aFace.Surface.isSome :=
  ⟨rfl, structOnly_keys sampleEnv _ 15 true (fun k => k) _ rfl⟩

/-- C9, evaluated at a face with a mesh and a null surface: in full mode `interrogate`
gives the null surface handle to `writeFaceTessellation`, which dereferences it at line
41, and returns no document; in struct-only mode the same shape gives a face object
without "surface". -/
theorem interrogate_nullSurface_undefined :
    interrogate sampleEnv (some (sampleShape [some (sampleFace 1 none)])) 15 false (fun k => k)
        = .undefined
      ∧ writeFaceTessellation sampleEnv (some sampleTriangulation) sampleLocation none DATA.Array
        = .undefined
      ∧ interrogate sampleEnv (some (sampleShape [some (sampleFace 1 none)])) 15 true (fun k => k)
        = .ok (.obj [("faces", .arr [.obj [("inverted", .bool true), ("ref", .int 1),
            ("ptr", .int 0)]])]) :=
  ⟨rfl, rfl, rfl⟩

/-! ## Normals -/

theorem DATA.get?_setField_self (k : String) (v : DATA R) (fields : List (String × DATA R)) :
    (DATA.obj (DATA.setField k v fields)).get? k = some v := by
  induction fields with
  | nil => simp [DATA.setField, DATA.get?]
  | cons p rest ih =>
    simp only [DATA.get?] at ih
    by_cases h : p.1 = k
    · simp [DATA.setField, DATA.get?, h]
    · simp [DATA.setField, DATA.get?, h, List.find?_cons, ih]

theorem DATA.get?_setField_of_ne (k k' : String) (v : DATA R) (h : k' ≠ k)
    (fields : List (String × DATA R)) :
    (DATA.obj (DATA.setField k v fields)).get? k' = (DATA.obj fields).get? k' := by
  induction fields with
  | nil => simp [DATA.setField, DATA.get?, Ne.symm h]
  | cons p rest ih =>
    obtain ⟨pk, pv⟩ := p
    simp only [DATA.get?] at ih ⊢
    have hkk : (k == k') = false := by simpa using Ne.symm h
    by_cases hp : pk = k
    · subst hp
      simp only [DATA.setField, if_true, List.find?_cons, hkk]
    · by_cases hk : pk = k'
      · have hb : (pk == k') = true := by simpa using hk
        simp only [DATA.setField, if_neg hp, List.find?_cons, hb]
      · have hb : (pk == k') = false := by simpa using hk
        simp only [DATA.setField, if_neg hp, List.find?_cons, hb, ih]

theorem DATA.get?_erase_of_ne (k k' : String) (h : k' ≠ k) (d : DATA R) :
    (d.erase k).get? k' = d.get? k' := by
  cases d with
  | obj fields =>
    induction fields with
    | nil => simp [DATA.erase, DATA.get?]
    | cons p rest ih =>
      obtain ⟨pk, pv⟩ := p
      simp only [DATA.erase, DATA.get?] at ih ⊢
      by_cases hp : pk = k
      · have hb : (pk == k) = true := by simpa using hp
        have hb' : (pk == k') = false := by
          have : ¬ pk = k' := fun h2 => h (h2.symm.trans hp)
          simpa using this
        simp only [List.filter_cons, hb, Bool.not_true, Bool.false_eq_true, if_false,
          List.find?_cons, hb', ih]
      · have hb : (pk == k) = false := by simpa using hp
        by_cases hk : pk = k'
        · have hb' : (pk == k') = true := by simpa using hk
          simp only [List.filter_cons, hb, Bool.not_false, if_true, List.find?_cons, hb']
        · have hb' : (pk == k') = false := by simpa using hk
          simp only [List.filter_cons, hb, Bool.not_false, if_true, List.find?_cons, hb', ih]
  | bool b => rfl
  | num x => rfl
  | int n => rfl
  | str s => rfl
  | arr items => rfl

theorem forall₂_of_map_eq {α β : Type} (f g : α → β) (l l' : List α)
    (h : l.map f = l'.map g) : List.Forall₂ (fun a b => f a = g b) l l' := by
  induction l generalizing l' with
  | nil =>
    cases l' with
    | nil => exact List.Forall₂.nil
    | cons b l' => simp at h
  | cons a l ih =>
    cases l' with
    | nil => simp at h
    | cons b l' =>
      simp only [List.map_cons, List.cons.injEq] at h
      exact List.Forall₂.cons h.1 (ih l' h.2)

theorem faceLoop_undefined (env : Externals R) (heap : Nat → Nat)
    (faces : List (Option (TopoDS_Face R))) (k : Nat) (out : List (DATA R))
    (h : ∃ f ∈ faces, nullSurface f = true) :
    faceLoop env false heap faces k out = .undefined := by
  induction faces generalizing k out with
  | nil =>
    obtain ⟨f, hf, _⟩ := h
    cases hf
  | cons g rest ih =>
    by_cases hg : nullSurface g = true
    · simp only [faceLoop, faceTry_undefined env heap k g hg]
    · have hrest : ∃ f ∈ rest, nullSurface f = true := by
        obtain ⟨f, hf, hn⟩ := h
        rcases List.mem_cons.mp hf with h1 | h1
        · rw [h1] at hn
          exact absurd hn hg
        · exact ⟨f, h1, hn⟩
      rcases hft : faceTry env false heap k g with ⟨o, k'⟩
      cases o with
      | ok a =>
        cases a with
        | none => simpa [faceLoop, hft] using ih k' out hrest
        | some faceOut => simpa [faceLoop, hft] using ih k' (out ++ [faceOut]) hrest
      | raise e => simpa [faceLoop, hft] using ih k' out hrest
      | undefined => simp [faceLoop, hft]

theorem faceLoop_safe_of_ok (env : Externals R) (so : Bool) (heap : Nat → Nat)
    (faces : List (Option (TopoDS_Face R))) (k : Nat) (out res : List (DATA R))
    (h : faceLoop env so heap faces k out = .ok res) :
    so = true ∨ ∀ f ∈ faces, nullSurface f = false := by
  cases so with
  | true => exact Or.inl rfl
  | false =>
    right
    intro f hf
    by_contra hc
    rw [faceLoop_undefined env heap faces k out ⟨f, hf, by simpa using hc⟩] at h
    cases h

theorem interrogate_ok_inv (env : Externals R) (aShape : Option (TopoDS_Shape R)) (d : R)
    (so : Bool) (heap : Nat → Nat) (doc : DATA R)
    (h : interrogate env aShape d so heap = .ok doc) :
    ∃ (shape : TopoDS_Shape R) (faces : List (Option (TopoDS_Face R)))
      (facesOut : List (DATA R)),
      aShape = some shape
      ∧ shape.IncrementalMesh (actualDeflection d) true (1 / 2) false = .ok faces
      ∧ faceLoop env so heap faces 0 [] = .ok facesOut
      ∧ doc = (DATA.Object : DATA R).set "faces" (.arr facesOut) := by
  cases aShape with
  | none =>
    simp only [interrogate] at h
    cases h
  | some shape =>
    cases hmesh : shape.IncrementalMesh (actualDeflection d) true (1 / 2) false with
    | error e =>
      simp only [interrogate, mesherArguments, hmesh] at h
      cases h
    | ok faces =>
      simp only [interrogate, mesherArguments, hmesh] at h
      cases hloop : faceLoop env so heap faces 0 [] with
      | raise e => simp [hloop] at h
      | undefined => simp [hloop] at h
      | ok facesOut =>
        simp only [hloop, Outcome.ok.injEq] at h
        exact ⟨shape, faces, facesOut, rfl, hmesh, hloop, h.symm⟩

/-- The "ref" of a face object is what the identity assignment returned for its face. -/
theorem faceTry_ref (env : Externals R) (so : Bool) (heap : Nat → Nat) (k k' : Nat)
    (f : Option (TopoDS_Face R)) (e : DATA R)
    (h : faceTry env so heap k f = (.ok (some e), k')) :
    ∃ (aFace : TopoDS_Face R) (ref : DATA R), f = some aFace
      ∧ env.getStableRefernce aFace = .ok ref ∧ e.get? "ref" = some ref := by
  obtain ⟨hm, hff, hs⟩ := faceTry_ok_inv env so heap k k' f e h
  cases f with
  | none => simp [hasMesh] at hm
  | some aFace =>
    obtain ⟨aTr, hT, hne⟩ := (hasMesh_iff aFace).mp hm
    have hs' : so = true ∨ aFace.Surface.isNone = false := by
      rcases hs with h1 | h1
      · exact Or.inl h1
      · simp only [nullSurface, hm, Bool.true_and] at h1
        exact Or.inr h1
    cases hr : env.getStableRefernce aFace with
    | error e' =>
      simp [faceFaults, hr, returns] at hff
    | ok ref =>
      refine ⟨aFace, ref, rfl, hr, ?_⟩
      rcases surfaceInfo_cases env aFace.Surface with ⟨fs1, h1, _, _⟩ | ⟨e', h1, h2⟩
      · obtain ⟨fs2, h2, _, _⟩ := tessInfo_cases env so aTr aFace.Location aFace.Surface hs' fs1
        simp only [faceTry, hT, hne, if_false, h1, h2, hr, DATA.set, Prod.mk.injEq,
          Outcome.ok.injEq, Option.some.injEq] at h
        rw [← h.1, DATA.get?_setField_of_ne _ _ _ (by decide), DATA.get?_setField_self]
      · simp only [faceTry, hT, hne, if_false, h1] at h
        cases h

/-- The face object of struct-only mode is the face object of full mode without "tess". -/
theorem faceEntry_structOnly (env : Externals R) (f : Option (TopoDS_Face R))
    (hm : hasMesh f = true) (hf : faceFaults env f = false) (hn : nullSurface f = false) :
    faceEntry env true f = (faceEntry env false f).erase "tess" := by
  cases f with
  | none => simp [hasMesh] at hm
  | some aFace =>
    obtain ⟨aTr, hT, hne⟩ := (hasMesh_iff aFace).mp hm
    cases hS : aFace.Surface with
    | none => simp [nullSurface, hm, hS] at hn
    | some s =>
      cases hr : env.getStableRefernce aFace with
      | error e => simp [faceFaults, hr, returns] at hf
      | ok ref =>
        cases hp : s.IsPlane with
        | false =>
          simp [faceEntry, faceTry, hT, hne, hS, surfaceInfo, hp, tessInfo_full,
            tessInfo_structOnly, hr, DATA.set, DATA.setField, DATA.erase, DATA.Object]
        | true =>
          cases hw : env.surfaceWrite s with
          | error e => simp [faceFaults, hS, hp, hw, returns] at hf
          | ok sd =>
            simp [faceEntry, faceTry, hT, hne, hS, surfaceInfo, hp, hw, tessInfo_full,
              tessInfo_structOnly, hr, DATA.set, DATA.setField, DATA.erase, DATA.Object]

theorem DATA.erase_comm (k k' : String) (d : DATA R) :
    (d.erase k).erase k' = (d.erase k').erase k := by
  cases d with
  | obj fields =>
    simp only [DATA.erase, List.filter_filter, DATA.obj.injEq]
    congr 1
    funext p
    exact Bool.and_comm _ _
  | bool b => rfl
  | num x => rfl
  | int n => rfl
  | str s => rfl
  | arr items => rfl

/-- C12: when an interrogation of a shape returns a document, a second interrogation of
the same shape with the same deflection and mode, whatever addresses its allocations
get, returns a document too; the two faces arrays have the same length and
corresponding face objects have the same "ref", "surface", "tess" and "inverted" and
are equal once "ptr" is removed; and every "ref" is the stable reference of an
enumerated face. -/
theorem interrogate_twice_same_refs (env : Externals R) (aShape : Option (TopoDS_Shape R))
    (d : R) (so : Bool) (heap heap' : Nat → Nat) (doc : DATA R)
    (h : interrogate env aShape d so heap = .ok doc) :
    ∃ doc', interrogate env aShape d so heap' = .ok doc'
      ∧ (facesOf doc).length = (facesOf doc').length
      ∧ List.Forall₂ (fun a b => a.get? "ref" = b.get? "ref"
          ∧ a.get? "surface" = b.get? "surface" ∧ a.get? "tess" = b.get? "tess"
          ∧ a.get? "inverted" = b.get? "inverted" ∧ a.erase "ptr" = b.erase "ptr")
          (facesOf doc) (facesOf doc')
      ∧ ∃ (shape : TopoDS_Shape R) (faces : List (Option (TopoDS_Face R))),
          aShape = some shape
          ∧ shape.IncrementalMesh (actualDeflection d) true (1 / 2) false = .ok faces
          ∧ ∀ a ∈ facesOf doc ++ facesOf doc', ∃ (aFace : TopoDS_Face R) (ref : DATA R),
              some aFace ∈ faces ∧ stableReference env aFace = .ok ref
              ∧ a.get? "ref" = some ref := by
  obtain ⟨shape, faces, lf, hshape, hmesh, hloop, hdoc⟩ :=
    interrogate_ok_inv env aShape d so heap doc h
  subst hshape
  have hs := faceLoop_safe_of_ok env so heap faces 0 [] lf hloop
  obtain ⟨new, h1, h2⟩ := faceLoop_entries env so heap faces hs 0 []
  obtain ⟨new', h1', h2'⟩ := faceLoop_entries env so heap' faces hs 0 []
  have hlf : lf = new := by
    rw [hloop] at h1
    simpa using h1
  subst hlf
  simp only [List.nil_append] at h1'
  have hmap : lf.map (DATA.erase "ptr") = new'.map (DATA.erase "ptr") := h2.trans h2'.symm
  have href : ∀ (hp : Nat → Nat) (l : List (DATA R)),
      faceLoop env so hp faces 0 [] = .ok l →
      ∀ a ∈ l, ∃ (aFace : TopoDS_Face R) (ref : DATA R),
        some aFace ∈ faces ∧ stableReference env aFace = .ok ref ∧ a.get? "ref" = some ref := by
    intro hp l hl a ha
    rcases faceLoop_mem env so hp faces 0 [] l hl a ha with h0 | ⟨f, hf, k, k', hft⟩
    · cases h0
    · obtain ⟨aFace, ref, rfl, hr, hg⟩ := faceTry_ref env so hp k k' f a hft
      exact ⟨aFace, ref, hf, hr, hg⟩
  refine ⟨_, interrogate_ok_of_faceLoop env shape d so heap' faces new' hmesh h1', ?_, ?_,
    shape, faces, rfl, hmesh, ?_⟩
  · rw [hdoc, facesOf_out, facesOf_out]
    simpa using congrArg List.length hmap
  · rw [hdoc, facesOf_out, facesOf_out]
    refine (forall₂_of_map_eq _ _ _ _ hmap).imp ?_
    intro a b hab
    have hk : ∀ key : String, key ≠ "ptr" → a.get? key = b.get? key := by
      intro key hkey
      rw [← DATA.get?_erase_of_ne "ptr" key hkey a, ← DATA.get?_erase_of_ne "ptr" key hkey b,
        hab]
    exact ⟨hk _ (by decide), hk _ (by decide), hk _ (by decide), hk _ (by decide), hab⟩
  · rw [hdoc, facesOf_out, facesOf_out]
    intro a ha
    rcases List.mem_append.mp ha with h3 | h3
    · exact href heap lf hloop a h3
    · exact href heap' new' h1' a h3

/-- C12 at a shape with a good plane face, a face on which the identity assignment
raises and a good curved face: in struct-only mode the two documents are shown, they
differ in "ptr" only; in full mode a document is returned and the second run agrees
with it. -/
theorem interrogate_twice_same_refs_witness :
    interrogate sampleEnv (some (sampleShape [some (sampleFace 5 (some samplePlane)),
        some (sampleFace 0 (some samplePlane)), some (sampleFace 6 (some sampleCurved))]))
        15 true (fun k => k)
      = .ok (.obj [("faces", .arr [
          .obj [("surface", .obj [("TYPE", .str "Plane")]), ("inverted", .bool true),
            ("ref", .int 5), ("ptr", .int 0)],
          .obj [("surface", .obj [("TYPE", .str "UNKNOWN")]), ("inverted", .bool true),
            ("ref", .int 6), ("ptr", .int 2)]])])
      ∧ interrogate sampleEnv (some (sampleShape [some (sampleFace 5 (some samplePlane)),
        some (sampleFace 0 (some samplePlane)), some (sampleFace 6 (some sampleCurved))]))
        15 true (fun k => 4096 + 64 * k)
      = .ok (.obj [("faces", .arr [
          .obj [("surface", .obj [("TYPE", .str "Plane")]), ("inverted", .bool true),
            ("ref", .int 5), ("ptr", .int 4096)],
          .obj [("surface", .obj [("TYPE", .str "UNKNOWN")]), ("inverted", .bool true),
            ("ref", .int 6), ("ptr", .int 4224)]])])
      ∧ (∃ doc', interrogate sampleEnv (some (sampleShape
            [some (sampleFace 5 (some samplePlane)), some (sampleFace 0 (some samplePlane)),
              some (sampleFace 6 (some sampleCurved))])) 15 true (fun k => 4096 + 64 * k)
            = .ok doc'
          ∧ (facesOf (.obj [("faces", .arr [
              .obj [("surface", .obj [("TYPE", .str "Plane")]), ("inverted", .bool true),
                ("ref", .int 5), ("ptr", .int 0)],
              .obj [("surface", .obj [("TYPE", .str "UNKNOWN")]), ("inverted", .bool true),
                ("ref", .int 6), ("ptr", .int 2)]])] : DATA ℚ)).length
              = (facesOf doc').length)
      ∧ ∃ doc doc', interrogate sampleEnv (some (sampleShape
            [some (sampleFace 5 (some samplePlane)), some (sampleFace 0 (some samplePlane)),
              some (sampleFace 6 (some sampleCurved))])) 15 false (fun k => k) = .ok doc
          ∧ interrogate sampleEnv (some (sampleShape
            [some (sampleFace 5 (some samplePlane)), some (sampleFace 0 (some samplePlane)),
              some (sampleFace 6 (some sampleCurved))])) 15 false (fun k => 4096 + 64 * k)
            = .ok doc'
          ∧ (facesOf doc).map (DATA.get? "ref") = (facesOf doc').map (DATA.get? "ref") := by
  refine ⟨rfl, rfl, ?_, ?_⟩
  · obtain ⟨doc', h1, h2, _⟩ := interrogate_twice_same_refs sampleEnv _ 15 true (fun k => k)
      (fun k => 4096 + 64 * k) _ (rfl : interrogate sampleEnv (some (sampleShape
        [some (sampleFace 5 (some samplePlane)), some (sampleFace 0 (some samplePlane)),
          some (sampleFace 6 (some sampleCurved))])) 15 true (fun k => k) = _)
    exact ⟨doc', h1, h2⟩
  · obtain ⟨new, h1, _⟩ := faceLoop_entries sampleEnv false (fun k => k)
      [some (sampleFace 5 (some samplePlane)), some (sampleFace 0 (some samplePlane)),
        some (sampleFace 6 (some sampleCurved))] (Or.inr (by decide)) 0 []
    have h := interrogate_ok_of_faceLoop sampleEnv (sampleShape
      [some (sampleFace 5 (some samplePlane)), some (sampleFace 0 (some samplePlane)),
        some (sampleFace 6 (some sampleCurved))]) 15 false (fun k => k) _ _ rfl h1
    obtain ⟨doc', h1', _, h3, _⟩ := interrogate_twice_same_refs sampleEnv _ 15 false
      (fun k => k) (fun k => 4096 + 64 * k) _ h
    refine ⟨_, doc', h, h1', ?_⟩
    generalize facesOf doc' = l' at h3
    generalize facesOf _ = l at h3
    induction h3 with
    | nil => rfl
    | cons hab _ ih => simp [hab.1, ih]

/-- C13: when the interrogation in full mode returns a document, the interrogation of the
same shape with the same deflection in struct-only mode returns a document too; both
documents hold just the faces array, the two arrays have the same length, and the
struct-only face objects are, in order, the full-mode face objects with "tess" removed,
"ptr" apart: corresponding face objects have the same "surface", "inverted" and
"ref". -/
theorem structOnly_eq_full_without_tess (env : Externals R) (aShape : Option (TopoDS_Shape R))
    (d : R) (heap heap' : Nat → Nat) (docFull : DATA R)
    (h : interrogate env aShape d false heap = .ok docFull) :
    ∃ docStruct, interrogate env aShape d true heap' = .ok docStruct
      ∧ docFull = .obj [("faces", .arr (facesOf docFull))]
      ∧ docStruct = .obj [("faces", .arr (facesOf docStruct))]
      ∧ (facesOf docStruct).length = (facesOf docFull).length
      ∧ (facesOf docStruct).map (DATA.erase "ptr")
          = (facesOf docFull).map (fun faceOut => (faceOut.erase "tess").erase "ptr")
      ∧ List.Forall₂ (fun s f => s.get? "surface" = f.get? "surface"
          ∧ s.get? "inverted" = f.get? "inverted" ∧ s.get? "ref" = f.get? "ref")
          (facesOf docStruct) (facesOf docFull) := by
  obtain ⟨shape, faces, lf, hshape, hmesh, hloop, hdoc⟩ :=
    interrogate_ok_inv env aShape d false heap docFull h
  subst hshape
  have hs : ∀ f ∈ faces, nullSurface f = false := by
    rcases faceLoop_safe_of_ok env false heap faces 0 [] lf hloop with h0 | h0
    · cases h0
    · exact h0
  obtain ⟨new, h1, h2⟩ := faceLoop_entries env false heap faces (Or.inr hs) 0 []
  obtain ⟨ls, h1', h2'⟩ := faceLoop_entries env true heap' faces (Or.inl rfl) 0 []
  have hlf : lf = new := by
    rw [hloop] at h1
    simpa using h1
  subst hlf
  simp only [List.nil_append] at h1'
  have hentry : (faces.filter (fun f => hasMesh f && !faceFaults env f)).map (faceEntry env true)
      = ((faces.filter (fun f => hasMesh f && !faceFaults env f)).map
          (faceEntry env false)).map (DATA.erase "tess") := by
    rw [List.map_map]
    apply List.map_congr_left
    intro f hf
    obtain ⟨hmem, hgood⟩ := List.mem_filter.mp hf
    simp only [Bool.and_eq_true, Bool.not_eq_true'] at hgood
    exact faceEntry_structOnly env f hgood.1 hgood.2 (hs f hmem)
  have hmap : ls.map (DATA.erase "ptr")
      = lf.map (fun faceOut => (faceOut.erase "tess").erase "ptr") := by
    rw [h2', hentry, ← h2, List.map_map]
    apply List.map_congr_left
    intro a _
    exact DATA.erase_comm "ptr" "tess" a
  have hfull : (DATA.Object : DATA R).set "faces" (.arr lf) = .obj [("faces", .arr lf)] := rfl
  have hstruct : (DATA.Object : DATA R).set "faces" (.arr ls) = .obj [("faces", .arr ls)] := rfl
  refine ⟨_, interrogate_ok_of_faceLoop env shape d true heap' faces ls hmesh h1', ?_, ?_, ?_,
    ?_, ?_⟩
  · rw [hdoc, facesOf_out, hfull]
  · rw [facesOf_out, hstruct]
  · rw [hdoc, facesOf_out, facesOf_out]
    simpa using congrArg List.length hmap
  · rw [hdoc, facesOf_out, facesOf_out]
    exact hmap
  · rw [hdoc, facesOf_out, facesOf_out]
    refine (forall₂_of_map_eq _ _ _ _ hmap).imp ?_
    intro s f hsf
    have hk : ∀ key : String, key ≠ "ptr" → key ≠ "tess" → s.get? key = f.get? key := by
      intro key hkey hkey'
      rw [← DATA.get?_erase_of_ne "ptr" key hkey s, hsf, DATA.get?_erase_of_ne "ptr" key hkey,
        DATA.get?_erase_of_ne "tess" key hkey']
    exact ⟨hk _ (by decide) (by decide), hk _ (by decide) (by decide),
      hk _ (by decide) (by decide)⟩

/-- C13 at a shape with one good plane face: the document of full mode, the document of
struct-only mode, and the relation between them. -/
theorem structOnly_eq_full_without_tess_witness :
    interrogate sampleEnv (some (sampleShape [some (sampleFace 5 (some samplePlane))])) 15 false
        (fun k => k)
      = .ok (.obj [("faces", .arr [.obj [("surface", .obj [("TYPE", .str "Plane")]),
          ("tess", .arr [
            .arr [.arr [.arr [.num 10, .num 0, .num 0], .arr [.num 10, .num 1, .num 0],
              .arr [.num 10, .num 0, .num 1]]],
            .arr [.arr [.arr [.num 10, .num 0, .num 1], .arr [.num 10, .num 1, .num 0],
              .arr [.num 10, .num 0, .num 0]]]]),
          ("inverted", .bool true), ("ref", .int 5), ("ptr", .int 0)]])])
      ∧ interrogate sampleEnv (some (sampleShape [some (sampleFace 5 (some samplePlane))])) 15
          true (fun k => 4096 + 64 * k)
        = .ok (.obj [("faces", .arr [.obj [("surface", .obj [("TYPE", .str "Plane")]),
            ("inverted", .bool true), ("ref", .int 5), ("ptr", .int 4096)]])])
      ∧ ∃ docStruct, interrogate sampleEnv
            (some (sampleShape [some (sampleFace 5 (some samplePlane))])) 15 true
            (fun k => 4096 + 64 * k) = .ok docStruct
          ∧ (facesOf docStruct).length = 1
          ∧ (facesOf docStruct).map (DATA.erase "ptr")
            = [.obj [("surface", .obj [("TYPE", .str "Plane")]), ("inverted", .bool true),
                ("ref", .int 5)]] := by
  have hfull : interrogate sampleEnv
      (some (sampleShape [some (sampleFace 5 (some samplePlane))])) 15 false (fun k => k)
      = .ok (.obj [("faces", .arr [.obj [("surface", .obj [("TYPE", .str "Plane")]),
          ("tess", .arr [
            .arr [.arr [.arr [.num 10, .num 0, .num 0], .arr [.num 10, .num 1, .num 0],
              .arr [.num 10, .num 0, .num 1]]],
            .arr [.arr [.arr [.num 10, .num 0, .num 1], .arr [.num 10, .num 1, .num 0],
              .arr [.num 10, .num 0, .num 0]]]]),
          ("inverted", .bool true), ("ref", .int 5), ("ptr", .int 0)]])]) := by
    have hne : ¬ (sampleTriangulation.NbTriangles = 0 ∨ sampleTriangulation.NbNodes = 0) := by
      decide
    have htess : writeFaceTessellation sampleEnv (some sampleTriangulation) sampleLocation
        (some samplePlane) DATA.Array
        = .ok (.arr [
            .arr [.arr [.arr [.num 10, .num 0, .num 0], .arr [.num 10, .num 1, .num 0],
              .arr [.num 10, .num 0, .num 1]]],
            .arr [.arr [.arr [.num 10, .num 0, .num 1], .arr [.num 10, .num 1, .num 0],
              .arr [.num 10, .num 0, .num 0]]]]) :=
      (writeFaceTessellation_eq sampleEnv sampleTriangulation sampleLocation samplePlane
        []).trans (by
          simp only [sampleTriangulation, Poly_Triangulation.NbNodes, List.length_cons,
            List.length_nil, List.filter, inRange]
          norm_num [triangleRecord, pointsOf, nodeOf, samplePlane, sampleEnv, sampleLocation,
            gp_Pnt.Transformed, show Int.toNat 2 = 2 from rfl])
    have hT : (sampleFace 5 (some samplePlane)).Triangulation = some sampleTriangulation := rfl
    have hS : (sampleFace 5 (some samplePlane)).Surface = some samplePlane := rfl
    have hL : (sampleFace 5 (some samplePlane)).Location = sampleLocation := rfl
    have hsi : surfaceInfo sampleEnv (some samplePlane) DATA.Object
        = .ok (.obj [("surface", .obj [("TYPE", .str "Plane")])]) := rfl
    have hti : ∀ faceOut : DATA ℚ, tessInfo sampleEnv false sampleTriangulation sampleLocation
        (some samplePlane) faceOut
        = .ok (faceOut.set "tess" (.arr [
            .arr [.arr [.arr [.num 10, .num 0, .num 0], .arr [.num 10, .num 1, .num 0],
              .arr [.num 10, .num 0, .num 1]]],
            .arr [.arr [.arr [.num 10, .num 0, .num 1], .arr [.num 10, .num 1, .num 0],
              .arr [.num 10, .num 0, .num 0]]]])) := by
      intro faceOut
      simp only [tessInfo, Bool.not_false, if_true, htess]
    have hr : sampleEnv.getStableRefernce (sampleFace 5 (some samplePlane)) = .ok (.int 5) :=
      rfl
    have hft : faceTry sampleEnv false (fun k => k) 0 (some (sampleFace 5 (some samplePlane)))
        = (.ok (some (.obj [("surface", .obj [("TYPE", .str "Plane")]),
          ("tess", .arr [
            .arr [.arr [.arr [.num 10, .num 0, .num 0], .arr [.num 10, .num 1, .num 0],
              .arr [.num 10, .num 0, .num 1]]],
            .arr [.arr [.arr [.num 10, .num 0, .num 1], .arr [.num 10, .num 1, .num 0],
              .arr [.num 10, .num 0, .num 0]]]]),
          ("inverted", .bool true), ("ref", .int 5), ("ptr", .int 0)])), 1) := by
      simp only [faceTry, hT, hne, if_false, hS, hL, hsi, hti, hr]
      rfl
    exact interrogate_ok_of_faceLoop sampleEnv _ 15 false (fun k => k)
      [some (sampleFace 5 (some samplePlane))] _ rfl (by simp only [faceLoop, hft]; rfl)
  obtain ⟨docStruct, h1, _, _, h4, h5, _⟩ := structOnly_eq_full_without_tess sampleEnv _ 15
    (fun k => k) (fun k => 4096 + 64 * k) _ hfull
  exact ⟨hfull, rfl, docStruct, h1, by rw [h4]; rfl, h5.trans rfl⟩

end e0.io
